import Mathlib

/-!
# Frame capture and frame upload of `img_processing_fifo.c`

A shallow embedding of `captureImage` and `sendDataToServer` and the
properties of the frame-acquisition protocol and of the upload framing.

* `captureImage` polls three control lines and the data-bus register.  The
  input is a `Script`: for each line, the sequence of values that the
  successive reads of that line return.  The function is a step machine whose
  program points are the statements of the C function.
* `sendDataToServer` writes bytes to the serial channel; its output is the
  list of bytes written.
-/

namespace FIFO

/-! ## Constants (lines 14-16) -/

def IMAGE_WIDTH : Nat := 320
def IMAGE_HEIGHT : Nat := 240
def BUFFER_SIZE : Nat := IMAGE_WIDTH * IMAGE_HEIGHT

/-- Range of `uint32_t`, the type of `bufferIndex`. -/
def UINT32_MOD : Nat := 4294967296

/-! ## Input of the capture -/

/-- Modelled from the spec: `digitalRead` and the register `GPIOA->IDR` are
not under src/; they are the digital input capability of the spec, "read
current boolean level of a named line; read the current 8-bit value of a
parallel input bus", behind "a test double that can script edge sequences".
A script gives the values returned by the successive reads of each input:
`vsync n` is what the `n`-th `digitalRead(CAM_VSYNC_PIN)` returns (`true` is
`HIGH`, `false` is `LOW`), likewise `href` and `pclk`; `idr n` is what the
`n`-th read of `GPIOA->IDR` returns. Reads are numbered from 0. -/
structure Script where
  vsync : Nat → Bool
  href : Nat → Bool
  pclk : Nat → Bool
  idr : Nat → Nat

/-- Program points of `captureImage` (lines 54-66). -/
inductive Pc where
  /-- line 54, before `bufferIndex = 0` -/
  | entry
  /-- line 55, `while (digitalRead(CAM_VSYNC_PIN) == LOW);` -/
  | vsyncLowWait
  /-- line 56, `while (digitalRead(CAM_VSYNC_PIN) == HIGH);` -/
  | vsyncHighWait
  /-- line 58, the test `bufferIndex < BUFFER_SIZE` -/
  | lineTest
  /-- line 59, `if (digitalRead(CAM_HREF_PIN) == HIGH)` -/
  | hrefPoll
  /-- line 60, the test `i < IMAGE_WIDTH` -/
  | pixelTest
  /-- line 61, `while (digitalRead(CAM_PCLK_PIN) == LOW);` -/
  | pclkLowWait
  /-- line 62, `imageBuffer[bufferIndex++] = GPIOA->IDR;` -/
  | sample
  /-- line 63, `while (digitalRead(CAM_PCLK_PIN) == HIGH);` -/
  | pclkHighWait
  /-- line 67, the function has returned -/
  | done
  deriving DecidableEq, Repr

/-- State of the capture: the two globals (lines 18-19), the loop variable
`i`, the number of reads made so far on each input, the list of stores into
`imageBuffer` made so far, as pairs (index, value), oldest first, and for each
of these stores the number of reads of PCLK made before it. -/
structure State where
  pc : Pc
  bufferIndex : Nat
  imageBuffer : List Nat
  i : Nat
  vsyncReads : Nat
  hrefReads : Nat
  pclkReads : Nat
  idrReads : Nat
  stores : List (Nat × Nat)
  sampledAt : List Nat

/-- The state in which `captureImage` is called: the globals hold whatever they
held before, nothing has been read or stored yet. -/
def State.start (buf : List Nat) (idx : Nat) : State :=
  { pc := .entry, bufferIndex := idx, imageBuffer := buf, i := 0,
    vsyncReads := 0, hrefReads := 0, pclkReads := 0, idrReads := 0, stores := [],
    sampledAt := [] }

/-- One statement (or one turn of a busy-wait) of `captureImage`. -/
def step (env : Script) (s : State) : State :=
  match s.pc with
  | .entry => { s with pc := .vsyncLowWait, bufferIndex := 0 }
  | .vsyncLowWait =>
    if env.vsync s.vsyncReads = false then { s with vsyncReads := s.vsyncReads + 1 }
    else { s with pc := .vsyncHighWait, vsyncReads := s.vsyncReads + 1 }
  | .vsyncHighWait =>
    if env.vsync s.vsyncReads = true then { s with vsyncReads := s.vsyncReads + 1 }
    else { s with pc := .lineTest, vsyncReads := s.vsyncReads + 1 }
  | .lineTest =>
    if s.bufferIndex < BUFFER_SIZE then { s with pc := .hrefPoll }
    else { s with pc := .done }
  | .hrefPoll =>
    if env.href s.hrefReads = true
    then { s with pc := .pixelTest, i := 0, hrefReads := s.hrefReads + 1 }
    else { s with pc := .lineTest, hrefReads := s.hrefReads + 1 }
  | .pixelTest =>
    if s.i < IMAGE_WIDTH then { s with pc := .pclkLowWait }
    else { s with pc := .lineTest }
  | .pclkLowWait =>
    if env.pclk s.pclkReads = false then { s with pclkReads := s.pclkReads + 1 }
    else { s with pc := .sample, pclkReads := s.pclkReads + 1 }
  | .sample =>
    { s with
      pc := .pclkHighWait
      imageBuffer := s.imageBuffer.set s.bufferIndex (env.idr s.idrReads % 256)
      bufferIndex := (s.bufferIndex + 1) % UINT32_MOD
      idrReads := s.idrReads + 1
      stores := s.stores ++ [(s.bufferIndex, env.idr s.idrReads % 256)]
      sampledAt := s.sampledAt ++ [s.pclkReads] }
  | .pclkHighWait =>
    if env.pclk s.pclkReads = true then { s with pclkReads := s.pclkReads + 1 }
    else { s with pc := .pixelTest, i := s.i + 1, pclkReads := s.pclkReads + 1 }
  | .done => s

/-- The state after `n` steps. -/
def run (env : Script) : Nat → State → State
  | 0, s => s
  | n + 1, s => run env n (step env s)

/-- The function `captureImage` (lines 53-67), called with the globals holding
`buf` and `idx`: the state in which it returns, when it returns within
`fuel` steps. -/
def captureImage (env : Script) (fuel : Nat) (buf : List Nat) (idx : Nat) : Option State :=
  let s := run env fuel (State.start buf idx)
  if s.pc = .done then some s else none

/-- The state `n` steps into a call of `captureImage` made with the globals
holding `buf` and `idx`. -/
def reach (env : Script) (buf : List Nat) (idx : Nat) (n : Nat) : State :=
  run env n (State.start buf idx)

/-- A state with the contents of the buffer left out: what the control flow
of `captureImage` depends on. -/
def control (s : State) : State := { s with imageBuffer := [] }

/-- A script for examples: VSYNC is read high once and then low, every third
read of HREF is high, PCLK is read high and low in turn, and the data bus
counts in threes. -/
def pulseScript : Script :=
  { vsync := fun n => n == 0
    href := fun n => n % 3 == 2
    pclk := fun n => n % 2 == 0
    idr := fun n => 3 * n + 1 }

/-- A script for examples whose pulses of PCLK last two reads: PCLK is read
high, high, low, again and again; HREF is always read high. -/
def slowScript : Script :=
  { vsync := fun n => n == 0
    href := fun _ => true
    pclk := fun n => n % 3 != 2
    idr := fun n => n }

/-- A script for examples on which VSYNC never asserts. -/
def deadScript : Script :=
  { vsync := fun _ => false
    href := fun _ => true
    pclk := fun n => n % 2 == 0
    idr := fun n => n }

/-- How many of the first `n` values of a script are high. -/
def countHigh (f : Nat → Bool) (n : Nat) : Nat :=
  ((List.range n).filter f).length

/-- The number of polls of HREF made so far that read high. -/
def highPolls (env : Script) (s : State) : Nat :=
  countHigh env.href s.hrefReads

/-- The script `pclk` holds, from read `start` on, at least `n` pulses, one
after the other: a pulse is a read that returns high followed, later, by a
read that returns low. -/
def HasPulses (pclk : Nat → Bool) : Nat → Nat → Prop
  | _, 0 => True
  | start, n + 1 =>
    ∃ h l, start ≤ h ∧ h < l ∧ pclk h = true ∧ pclk l = false ∧ HasPulses pclk (l + 1) n

/-- Read `j` of PCLK begins a pulse: it returns high, and it is the first
read or the read before it returned low. -/
def isRise (pclk : Nat → Bool) (j : Nat) : Bool :=
  pclk j && (j == 0 || !pclk (j - 1))

/-- The number of pulses of PCLK that begin among its reads `0 .. n - 1`. A
read `r` with `isRise pclk r` and `risesBefore pclk r = k` is the first read
of pulse `k`, the pulses being numbered from 0. -/
def risesBefore (pclk : Nat → Bool) (n : Nat) : Nat :=
  countHigh (isRise pclk) n

/-- What holds of every state of `captureImage` between the reads of PCLK and
the stores: store `k` was made right after the read of PCLK that begins pulse
`k`; line 62 is reached right after the read that begins the next pulse; in
the wait of line 63 the pulse of the last store is still on; everywhere else
every pulse begun so far has a store and PCLK was last read low (or not at
all). -/
def PulseInv (env : Script) (s : State) : Prop :=
  s.sampledAt.length = s.stores.length ∧
  (∀ k, k < s.sampledAt.length →
    ∃ r, s.sampledAt[k]? = some (r + 1) ∧ isRise env.pclk r = true ∧
      risesBefore env.pclk r = k) ∧
  match s.pc with
  | .sample =>
    1 ≤ s.pclkReads ∧ isRise env.pclk (s.pclkReads - 1) = true ∧
      risesBefore env.pclk (s.pclkReads - 1) = s.stores.length
  | .pclkHighWait =>
    risesBefore env.pclk s.pclkReads = s.stores.length ∧ 1 ≤ s.pclkReads ∧
      env.pclk (s.pclkReads - 1) = true
  | _ =>
    risesBefore env.pclk s.pclkReads = s.stores.length ∧
      (s.pclkReads = 0 ∨ env.pclk (s.pclkReads - 1) = false)

/-! ## Serial channel and upload (lines 69-87) -/

/-- The bytes of a string of the program (they are all ASCII). -/
def bytes (s : String) : List Nat := s.data.map Char.toNat

/-- Modelled from the spec: the object `Serial1` is not under src/; it is the
"command/response serial channel" of the spec. `tx` is the list of bytes
written so far, oldest first; `rx` is the list of bytes that the receive side
delivers before a search gives up. -/
structure Serial where
  tx : List Nat
  rx : List Nat

/-- Modelled from the spec: `Serial1.print` is not under src/. The call
`Serial1.print(str)` on a string "writes bytes to the serial channel": the
bytes of the string. -/
def Serial.print (p : Serial) (str : String) : Serial :=
  { p with tx := p.tx ++ bytes str }

/-- Modelled from the spec: `Serial1.print` is not under src/. The call
`Serial1.print(n)` on a number writes its decimal text, as in the header
"whose value is the actual buffer length". -/
def Serial.printNum (p : Serial) (n : Nat) : Serial :=
  { p with tx := p.tx ++ bytes (Nat.repr n) }

/-- Modelled from the spec: `Serial1.println` is not under src/. The call
`Serial1.println(n)` on a number ends the "length-declaration command": it
writes the decimal text of `n` and the line terminator of the serial library,
carriage return and line feed. -/
def Serial.println (p : Serial) (n : Nat) : Serial :=
  (p.printNum n).print "\r\n"

/-- Modelled from the spec: `Serial1.write` is not under src/. The call
`Serial1.write(b)` writes the one byte `b` ("byte-for-byte, in index order"). -/
def Serial.write (p : Serial) (b : Nat) : Serial :=
  { p with tx := p.tx ++ [b] }

/-- Modelled from the spec: `Serial1.find` is not under src/. The search of
the received bytes for `target` ("wait for a single prompt character to
appear on the receive side"): they are consumed up to and including the
first `target`; the result is whether it was found. -/
def findByte (target : Nat) : List Nat → Bool × List Nat
  | [] => (false, [])
  | c :: rest => if c = target then (true, rest) else findByte target rest

/-- Modelled from the spec: `Serial1.find` is not under src/. The call
`Serial1.find(">")`, for a target of one character. -/
def Serial.find (p : Serial) (target : Nat) : Bool × Serial :=
  ((findByte target p.rx).1, { p with rx := (findByte target p.rx).2 })

/-- The character `>`, the prompt of the modem. -/
def PROMPT : Nat := 62

/-- The function `sendDataToServer` (lines 69-87) on the channel `p`, with the
global `imageBuffer` holding `imageBuffer`. -/
def sendDataToServer (p : Serial) (imageBuffer : List Nat) : Serial :=
  let p := p.print "AT+CIPSEND="
  let p := p.println (BUFFER_SIZE + 4)
  let r := p.find PROMPT
  if r.1 then
    let p := r.2.print "POST /upload HTTP/1.1\r\n"
    let p := p.print "Host: yourserver.com\r\n"
    let p := p.print "Content-Length: "
    let p := p.printNum BUFFER_SIZE
    let p := p.print "\r\n\r\n"
    (List.range BUFFER_SIZE).foldl (fun q i => q.write (imageBuffer.getD i 0)) p
  else r.2

/-- What follows the first occurrence of `pat` in a byte stream, when `pat`
occurs in it. -/
def afterFirst (pat : List Nat) : List Nat → Option (List Nat)
  | [] => if pat = [] then some [] else none
  | x :: xs =>
    if pat.isPrefixOf (x :: xs) then some ((x :: xs).drop pat.length)
    else afterFirst pat xs

/-! ## Invariant of the capture -/

/-- What holds of every state of `captureImage` after the reset of line 54:
the buffer keeps its length; the data bus has been read once per store; the
stores made so far are those of the indices `0 .. bufferIndex - 1` in this
order, the `k`-th with the `k`-th value read from the data bus; the buffer
holds these values; and `bufferIndex` is `IMAGE_WIDTH` times the number of
completed lines plus the pixels of the current line. -/
def Inv (env : Script) (s : State) : Prop :=
  s.imageBuffer.length = BUFFER_SIZE ∧
  s.idrReads = s.bufferIndex ∧
  s.stores = (List.range s.bufferIndex).map (fun k => (k, env.idr k % 256)) ∧
  s.imageBuffer.take s.bufferIndex = (List.range s.bufferIndex).map (fun k => env.idr k % 256) ∧
  match s.pc with
  | .entry => False
  | .vsyncLowWait => s.bufferIndex = 0 ∧ s.hrefReads = 0
  | .vsyncHighWait => s.bufferIndex = 0 ∧ s.hrefReads = 0
  | .lineTest =>
    s.bufferIndex = IMAGE_WIDTH * highPolls env s ∧ highPolls env s ≤ IMAGE_HEIGHT
  | .hrefPoll =>
    s.bufferIndex = IMAGE_WIDTH * highPolls env s ∧ highPolls env s < IMAGE_HEIGHT
  | .pixelTest =>
    s.bufferIndex + IMAGE_WIDTH = IMAGE_WIDTH * highPolls env s + s.i ∧
      s.i ≤ IMAGE_WIDTH ∧ highPolls env s ≤ IMAGE_HEIGHT
  | .pclkLowWait =>
    s.bufferIndex + IMAGE_WIDTH = IMAGE_WIDTH * highPolls env s + s.i ∧
      s.i < IMAGE_WIDTH ∧ highPolls env s ≤ IMAGE_HEIGHT
  | .sample =>
    s.bufferIndex + IMAGE_WIDTH = IMAGE_WIDTH * highPolls env s + s.i ∧
      s.i < IMAGE_WIDTH ∧ highPolls env s ≤ IMAGE_HEIGHT
  | .pclkHighWait =>
    s.bufferIndex + IMAGE_WIDTH = IMAGE_WIDTH * highPolls env s + s.i + 1 ∧
      s.i < IMAGE_WIDTH ∧ highPolls env s ≤ IMAGE_HEIGHT
  | .done => s.bufferIndex = BUFFER_SIZE ∧ highPolls env s = IMAGE_HEIGHT

/-! ## The upload -/

theorem findByte_fst (t : Nat) (rx : List Nat) : (findByte t rx).1 = true ↔ t ∈ rx := by
  induction rx with
  | nil => simp [findByte]
  | cons c rest ih =>
    by_cases h : c = t
    · simp [findByte, h]
    · have h2 : ¬ t = c := fun e => h e.symm
      simp [findByte, h, h2, ih]

theorem foldl_write_tx (buf : List Nat) (n : Nat) (p : Serial) :
    ((List.range n).foldl (fun q i => q.write (buf.getD i 0)) p).tx
      = p.tx ++ (List.range n).map (fun i => buf.getD i 0) := by
  induction n with
  | zero => simp
  | succ n ih =>
    rw [List.range_succ, List.foldl_append, List.map_append, ← List.append_assoc, ← ih]
    rfl

theorem map_getD_range (buf : List Nat) :
    (List.range buf.length).map (fun i => buf.getD i 0) = buf := by
  apply List.ext_getElem
  · simp
  · intro i h1 h2
    simp [List.getD_eq_getElem?_getD, List.getElem?_eq_getElem h2]

/-- The bytes `sendDataToServer` writes when the prompt is found. -/
theorem send_tx_found (p : Serial) (b : List Nat) (hb : b.length = BUFFER_SIZE)
    (hp : PROMPT ∈ p.rx) :
    (sendDataToServer p b).tx
      = p.tx ++ (bytes "AT+CIPSEND=" ++ bytes (Nat.repr (BUFFER_SIZE + 4)) ++ bytes "\r\n"
          ++ bytes "POST /upload HTTP/1.1\r\n" ++ bytes "Host: yourserver.com\r\n"
          ++ bytes "Content-Length: " ++ bytes (Nat.repr BUFFER_SIZE) ++ bytes "\r\n\r\n"
          ++ b) := by
  have hf : (findByte PROMPT p.rx).1 = true := (findByte_fst _ _).2 hp
  have hm := map_getD_range b
  rw [hb] at hm
  simp only [sendDataToServer, Serial.find, Serial.println, Serial.print, Serial.printNum, hf,
    if_true, foldl_write_tx, hm, List.append_assoc]

/-- The bytes `sendDataToServer` writes when the prompt is not found. -/
theorem send_tx_missing (p : Serial) (b : List Nat) (hp : PROMPT ∉ p.rx) :
    (sendDataToServer p b).tx
      = p.tx ++ (bytes "AT+CIPSEND=" ++ bytes (Nat.repr (BUFFER_SIZE + 4)) ++ bytes "\r\n") := by
  have hf : (findByte PROMPT p.rx).1 = false := by
    cases h : (findByte PROMPT p.rx).1
    · rfl
    · exact absurd ((findByte_fst _ _).1 h) hp
  simp [sendDataToServer, Serial.find, Serial.println, Serial.print, Serial.printNum, hf]

theorem repr_declared : Nat.repr (BUFFER_SIZE + 4) = "76804" := by decide

theorem repr_content : Nat.repr BUFFER_SIZE = "76800" := by decide

/-- C3: for every buffer `b` of length `BUFFER_SIZE`, when the prompt is
delivered, the bytes written by `sendDataToServer` are exactly: the command
`AT+CIPSEND=`, the decimal text of `BUFFER_SIZE + 4` (76804) and the line
terminator; the request line; the `Host` header; `Content-Length: ` and the
decimal text of `BUFFER_SIZE` (76800); the blank line; then the bytes of `b`
in index order, with nothing before, between or after. -/
theorem C3_upload_stream (rx b : List Nat) (hb : b.length = BUFFER_SIZE)
    (hp : PROMPT ∈ rx) :
    (sendDataToServer { tx := [], rx := rx } b).tx
      = bytes "AT+CIPSEND=" ++ bytes "76804" ++ bytes "\r\n"
          ++ bytes "POST /upload HTTP/1.1\r\n" ++ bytes "Host: yourserver.com\r\n"
          ++ bytes "Content-Length: " ++ bytes "76800" ++ bytes "\r\n\r\n" ++ b := by
  rw [send_tx_found _ b hb hp, repr_declared, repr_content]
  rfl

/-- C3 at a buffer filled with 171, the prompt arriving after `OK`. -/
theorem C3_upload_stream_witness :
    (sendDataToServer { tx := [], rx := [79, 75, 13, 10, 62, 32] }
        (List.replicate BUFFER_SIZE 171)).tx
      = bytes "AT+CIPSEND=" ++ bytes "76804" ++ bytes "\r\n"
          ++ bytes "POST /upload HTTP/1.1\r\n" ++ bytes "Host: yourserver.com\r\n"
          ++ bytes "Content-Length: " ++ bytes "76800" ++ bytes "\r\n\r\n"
          ++ List.replicate BUFFER_SIZE 171 :=
  C3_upload_stream [79, 75, 13, 10, 62, 32] (List.replicate BUFFER_SIZE 171)
    (List.length_replicate _ _) (by decide)

/-- C4: for every buffer, if the receive side never delivers the prompt `>`,
the complete output of `sendDataToServer` is the command `AT+CIPSEND=76804`
with its line terminator and nothing else; the function returns, and its result
carries no error report. -/
theorem C4_no_prompt_only_command (rx b : List Nat) (hp : PROMPT ∉ rx) :
    (sendDataToServer { tx := [], rx := rx } b).tx = bytes "AT+CIPSEND=76804\r\n" := by
  rw [send_tx_missing _ b hp, repr_declared]
  rfl

/-- C4 when the modem answers `ERROR`. -/
theorem C4_no_prompt_only_command_witness :
    (sendDataToServer { tx := [], rx := [69, 82, 82, 79, 82, 13, 10] } [1, 2, 3]).tx
      = bytes "AT+CIPSEND=76804\r\n" :=
  C4_no_prompt_only_command [69, 82, 82, 79, 82, 13, 10] [1, 2, 3] (by decide)

/-- C5: round trip of the upload. For every buffer `b` of length `BUFFER_SIZE`,
whatever its bytes, when the prompt is delivered the part of the output of
`sendDataToServer` that follows the first occurrence of the header terminator
(carriage return, line feed, twice) is exactly `b`. -/
theorem C5_body_round_trip (rx b : List Nat) (hb : b.length = BUFFER_SIZE)
    (hp : PROMPT ∈ rx) :
    afterFirst (bytes "\r\n\r\n") (sendDataToServer { tx := [], rx := rx } b).tx = some b := by
  rw [send_tx_found _ b hb hp, repr_declared, repr_content]
  simp [bytes, afterFirst, List.isPrefixOf]

/-- C5 at the pattern `b[i] = i mod 256`. -/
theorem C5_body_round_trip_witness :
    ((List.range BUFFER_SIZE).map (fun i => i % 256)).length = BUFFER_SIZE ∧
    afterFirst (bytes "\r\n\r\n")
        (sendDataToServer { tx := [], rx := [62] }
          ((List.range BUFFER_SIZE).map (fun i => i % 256))).tx
      = some ((List.range BUFFER_SIZE).map (fun i => i % 256)) :=
  ⟨by simp, C5_body_round_trip [62] ((List.range BUFFER_SIZE).map (fun i => i % 256))
    (by simp) (by decide)⟩

/-- C10: when the prompt is delivered, the output of `sendDataToServer` is the
length-declaration command, declaring `BUFFER_SIZE + 4` = 76804 bytes, followed
by a preamble of 70 bytes whose `Content-Length` is `BUFFER_SIZE` = 76800, and
by the body: 70 + 76800 = 76870 bytes after the command, 66 more than declared;
and the declared length is 4 more than the `Content-Length`. -/
theorem C10_declared_length_mismatch (rx b : List Nat) (hb : b.length = BUFFER_SIZE)
    (hp : PROMPT ∈ rx) :
    ∃ declared contentLength : Nat, ∃ preamble : List Nat,
      (sendDataToServer { tx := [], rx := rx } b).tx
        = (bytes "AT+CIPSEND=" ++ bytes (Nat.repr declared) ++ bytes "\r\n") ++ (preamble ++ b) ∧
      preamble = bytes "POST /upload HTTP/1.1\r\n" ++ bytes "Host: yourserver.com\r\n"
          ++ bytes "Content-Length: " ++ bytes (Nat.repr contentLength) ++ bytes "\r\n\r\n" ∧
      declared = BUFFER_SIZE + 4 ∧ declared = 76804 ∧
      contentLength = BUFFER_SIZE ∧ contentLength = 76800 ∧
      preamble.length = 70 ∧
      (preamble ++ b).length = 70 + 76800 ∧
      (preamble ++ b).length = 76870 ∧
      (preamble ++ b).length = declared + 66 ∧
      declared = contentLength + 4 := by
  refine ⟨BUFFER_SIZE + 4, BUFFER_SIZE, _, ?_, rfl, rfl, by decide, rfl, by decide, ?_, ?_, ?_,
    ?_, rfl⟩
  · rw [send_tx_found _ b hb hp]
    simp only [List.nil_append, List.append_assoc]
  · rw [repr_content]; decide
  · rw [List.length_append, hb, repr_content]; decide
  · rw [List.length_append, hb, repr_content]; decide
  · rw [List.length_append, hb, repr_content]; decide

/-- C10 at a buffer filled with 7. -/
theorem C10_declared_length_mismatch_witness :
    ∃ declared contentLength : Nat, ∃ preamble : List Nat,
      (sendDataToServer { tx := [], rx := [62, 62] } (List.replicate BUFFER_SIZE 7)).tx
        = (bytes "AT+CIPSEND=" ++ bytes (Nat.repr declared) ++ bytes "\r\n")
            ++ (preamble ++ List.replicate BUFFER_SIZE 7) ∧
      preamble = bytes "POST /upload HTTP/1.1\r\n" ++ bytes "Host: yourserver.com\r\n"
          ++ bytes "Content-Length: " ++ bytes (Nat.repr contentLength) ++ bytes "\r\n\r\n" ∧
      declared = BUFFER_SIZE + 4 ∧ declared = 76804 ∧
      contentLength = BUFFER_SIZE ∧ contentLength = 76800 ∧
      preamble.length = 70 ∧
      (preamble ++ List.replicate BUFFER_SIZE 7).length = 70 + 76800 ∧
      (preamble ++ List.replicate BUFFER_SIZE 7).length = 76870 ∧
      (preamble ++ List.replicate BUFFER_SIZE 7).length = declared + 66 ∧
      declared = contentLength + 4 :=
  C10_declared_length_mismatch [62, 62] (List.replicate BUFFER_SIZE 7)
    (List.length_replicate _ _) (by decide)

/-! ## Small examples -/

/-- Sixteen steps into a call on the example script: the reset, the two waits
on VSYNC, two polls of HREF that read low and one that reads high, and two
turns of the pixel loop, which store the first two values of the data bus. -/
theorem reach_example :
    (reach pulseScript [9, 9, 9, 9] 3 16).pc = .pclkHighWait ∧
    (reach pulseScript [9, 9, 9, 9] 3 16).bufferIndex = 2 ∧
    (reach pulseScript [9, 9, 9, 9] 3 16).imageBuffer = [1, 4, 9, 9] ∧
    (reach pulseScript [9, 9, 9, 9] 3 16).stores = [(0, 1), (1, 4)] ∧
    (reach pulseScript [9, 9, 9, 9] 3 16).sampledAt = [1, 3] ∧
    (reach pulseScript [9, 9, 9, 9] 3 16).i = 1 ∧
    (reach pulseScript [9, 9, 9, 9] 3 16).vsyncReads = 2 ∧
    (reach pulseScript [9, 9, 9, 9] 3 16).hrefReads = 3 ∧
    (reach pulseScript [9, 9, 9, 9] 3 16).pclkReads = 3 ∧
    (reach pulseScript [9, 9, 9, 9] 3 16).idrReads = 2 := by
  decide

/-- Fourteen steps into a call on the script with pulses of two reads: the
second read of pulse 0 is passed over by the wait of line 63, and the second
store is made after read 3 of PCLK, which begins pulse 1. -/
theorem reach_slow_example :
    (reach slowScript [9, 9, 9, 9] 0 14).pc = .pclkHighWait ∧
    (reach slowScript [9, 9, 9, 9] 0 14).stores = [(0, 0), (1, 1)] ∧
    (reach slowScript [9, 9, 9, 9] 0 14).sampledAt = [1, 4] ∧
    (reach slowScript [9, 9, 9, 9] 0 14).pclkReads = 5 ∧
    isRise slowScript.pclk 0 = true ∧ risesBefore slowScript.pclk 0 = 0 ∧
    isRise slowScript.pclk 1 = false ∧ isRise slowScript.pclk 2 = false ∧
    isRise slowScript.pclk 3 = true ∧ risesBefore slowScript.pclk 3 = 1 := by
  decide

/-- The search for the prompt consumes the received bytes up to the prompt. -/
theorem findByte_example :
    findByte PROMPT [79, 75, 13, 10, 62, 32] = (true, [32]) ∧
    findByte PROMPT [69, 82, 82, 79, 82] = (false, []) := by
  decide

/-- What follows the first header terminator, on a small stream. -/
theorem afterFirst_example :
    afterFirst (bytes "\r\n\r\n") [72, 13, 10, 13, 10, 5, 13, 10, 13, 10, 6]
      = some [5, 13, 10, 13, 10, 6] := by
  decide

/-! ## The capture: safety -/

theorem run_add (env : Script) (a b : Nat) (s : State) :
    run env (a + b) s = run env b (run env a s) := by
  induction a generalizing s with
  | zero => simp [run]
  | succ a ih => rw [Nat.succ_add]; exact ih _

theorem run_succ_last (env : Script) (n : Nat) (s : State) :
    run env (n + 1) s = step env (run env n s) := by
  rw [run_add]; rfl

theorem run_done (env : Script) (n : Nat) (s : State) (h : s.pc = .done) :
    run env n s = s := by
  induction n with
  | zero => rfl
  | succ n ih =>
    have : step env s = s := by simp [step, h]
    simp [run, this, ih]

theorem countHigh_succ (f : Nat → Bool) (n : Nat) :
    countHigh f (n + 1) = countHigh f n + (if f n = true then 1 else 0) := by
  unfold countHigh
  rw [List.range_succ, List.filter_append, List.length_append]
  by_cases h : f n = true <;> simp [h]

theorem take_succ_set (l : List Nat) (n a : Nat) (h : n < l.length) :
    (l.set n a).take (n + 1) = l.take n ++ [a] := by
  rw [List.take_succ, List.getElem?_set_self h]
  have : (l.set n a).take n = l.take n := by
    apply List.ext_getElem?
    intro i
    rw [List.getElem?_take, List.getElem?_take]
    split
    · next h2 => rw [List.getElem?_set_ne (by omega)]
    · rfl
  rw [this]; rfl

theorem Inv_start (env : Script) (buf : List Nat) (idx : Nat) (hb : buf.length = BUFFER_SIZE) :
    Inv env (step env (State.start buf idx)) := by
  simp [Inv, step, State.start, hb]

theorem Inv_step (env : Script) (s : State) (h : Inv env s) : Inv env (step env s) := by
  obtain ⟨pc, bi, buf, i, vr, hr, pr, ir, st, sa⟩ := s
  obtain ⟨h1, h2, h3, h4, h5⟩ := h
  simp only at h1 h2 h3 h4 h5
  cases pc
  case entry => exact h5.elim
  case vsyncLowWait =>
    cases c : env.vsync vr <;>
      simp only [step, c, Bool.true_eq_false, if_true, if_false] <;>
      exact ⟨h1, h2, h3, h4, h5⟩
  case vsyncHighWait =>
    cases c : env.vsync vr <;>
      simp only [step, c, Bool.false_eq_true, if_true, if_false]
    · refine ⟨h1, h2, h3, h4, ?_⟩
      simp only [highPolls, countHigh, IMAGE_WIDTH, IMAGE_HEIGHT, h5.2] at *
      simp [h5.1]
    · exact ⟨h1, h2, h3, h4, h5⟩
  case lineTest =>
    by_cases c : bi < BUFFER_SIZE <;> simp only [step, c, if_true, if_false] <;>
      refine ⟨h1, h2, h3, h4, ?_⟩ <;>
      simp only [highPolls, BUFFER_SIZE, IMAGE_WIDTH, IMAGE_HEIGHT] at * <;> omega
  case hrefPoll =>
    cases c : env.href hr <;>
      simp only [step, c, Bool.false_eq_true, if_true, if_false] <;>
      refine ⟨h1, h2, h3, h4, ?_⟩ <;>
      simp only [highPolls, countHigh_succ, c, Bool.false_eq_true, if_true, if_false,
        BUFFER_SIZE, IMAGE_WIDTH, IMAGE_HEIGHT] at * <;> omega
  case pixelTest =>
    by_cases c : i < IMAGE_WIDTH <;> simp only [step, c, if_true, if_false] <;>
      refine ⟨h1, h2, h3, h4, ?_⟩ <;>
      simp only [highPolls, BUFFER_SIZE, IMAGE_WIDTH, IMAGE_HEIGHT] at * <;> omega
  case pclkLowWait =>
    cases c : env.pclk pr <;>
      simp only [step, c, Bool.true_eq_false, if_true, if_false] <;>
      exact ⟨h1, h2, h3, h4, h5⟩
  case sample =>
    have hlt : bi < buf.length := by
      simp only [highPolls, BUFFER_SIZE, IMAGE_WIDTH, IMAGE_HEIGHT] at *
      omega
    have hmod : (bi + 1) % UINT32_MOD = bi + 1 := by
      apply Nat.mod_eq_of_lt
      simp only [highPolls, BUFFER_SIZE, IMAGE_WIDTH, IMAGE_HEIGHT, UINT32_MOD] at *
      omega
    simp only [step, hmod]
    refine ⟨?_, ?_, ?_, ?_, ?_⟩
    · simp only [List.length_set]; exact h1
    · simp only; omega
    · simp only
      rw [h3, List.range_succ, List.map_append, h2]; rfl
    · simp only
      rw [take_succ_set _ _ _ hlt, h4, List.range_succ, List.map_append, h2]; rfl
    · simp only [highPolls, BUFFER_SIZE, IMAGE_WIDTH, IMAGE_HEIGHT] at *
      omega
  case pclkHighWait =>
    cases c : env.pclk pr <;>
      simp only [step, c, Bool.false_eq_true, if_true, if_false]
    · refine ⟨h1, h2, h3, h4, ?_⟩
      simp only [highPolls, BUFFER_SIZE, IMAGE_WIDTH, IMAGE_HEIGHT] at *
      omega
    · exact ⟨h1, h2, h3, h4, h5⟩
  case done => exact ⟨h1, h2, h3, h4, h5⟩

theorem Inv_run (env : Script) (n : Nat) (s : State) (h : Inv env s) : Inv env (run env n s) := by
  induction n generalizing s with
  | zero => exact h
  | succ n ih => exact ih _ (Inv_step env s h)

/-- Every state after the first step of a call satisfies the invariant. -/
theorem Inv_reach (env : Script) (buf : List Nat) (idx : Nat) (hb : buf.length = BUFFER_SIZE)
    (n : Nat) : Inv env (run env (n + 1) (State.start buf idx)) :=
  Inv_run env n _ (Inv_start env buf idx hb)

/-! ## The capture: progress -/

theorem HasPulses_mono (f : Nat → Bool) (n a b : Nat) (h : HasPulses f a n) (hab : b ≤ a) :
    HasPulses f b n := by
  cases n with
  | zero => trivial
  | succ n =>
    obtain ⟨hi, lo, h1, h2, h3, h4, h5⟩ := h
    exact ⟨hi, lo, by omega, h2, h3, h4, h5⟩

/-- The wait of line 55 ends at the first read of VSYNC that returns high. -/
theorem vsyncLowWait_run (env : Script) (d : Nat) : ∀ (s : State) (m : Nat),
    s.pc = .vsyncLowWait → s.vsyncReads ≤ m → m ≤ s.vsyncReads + d → env.vsync m = true →
    ∃ n m1, m1 ≤ m ∧
      run env n s = { s with pc := .vsyncHighWait, vsyncReads := m1 + 1 } := by
  induction d with
  | zero =>
    intro s m hpc h1 h2 hm
    have : m = s.vsyncReads := by omega
    subst this
    exact ⟨1, s.vsyncReads, le_refl _, by simp [run, step, hpc, hm]⟩
  | succ d ih =>
    intro s m hpc h1 h2 hm
    cases c : env.vsync s.vsyncReads
    · have hne : s.vsyncReads ≠ m := by
        intro e; rw [e, hm] at c; exact Bool.noConfusion c
      obtain ⟨n, m1, hm1, hr⟩ := ih { s with vsyncReads := s.vsyncReads + 1 } m hpc
        (by simp only; omega) (by simp only; omega) hm
      refine ⟨n + 1, m1, hm1, ?_⟩
      have hs : step env s = { s with vsyncReads := s.vsyncReads + 1 } := by
        simp [step, hpc, c]
      simp only [run, hs, hr]
    · exact ⟨1, s.vsyncReads, h1, by simp [run, step, hpc, c]⟩

/-- The wait of line 56 ends at the first read of VSYNC that returns low. -/
theorem vsyncHighWait_run (env : Script) (d : Nat) : ∀ (s : State) (m : Nat),
    s.pc = .vsyncHighWait → s.vsyncReads ≤ m → m ≤ s.vsyncReads + d → env.vsync m = false →
    ∃ n m1, m1 ≤ m ∧
      run env n s = { s with pc := .lineTest, vsyncReads := m1 + 1 } := by
  induction d with
  | zero =>
    intro s m hpc h1 h2 hm
    have : m = s.vsyncReads := by omega
    subst this
    exact ⟨1, s.vsyncReads, le_refl _, by simp [run, step, hpc, hm]⟩
  | succ d ih =>
    intro s m hpc h1 h2 hm
    cases c : env.vsync s.vsyncReads
    · exact ⟨1, s.vsyncReads, h1, by simp [run, step, hpc, c]⟩
    · have hne : s.vsyncReads ≠ m := by
        intro e; rw [e, hm] at c; exact Bool.noConfusion c
      obtain ⟨n, m1, hm1, hr⟩ := ih { s with vsyncReads := s.vsyncReads + 1 } m hpc
        (by simp only; omega) (by simp only; omega) hm
      refine ⟨n + 1, m1, hm1, ?_⟩
      have hs : step env s = { s with vsyncReads := s.vsyncReads + 1 } := by
        simp [step, hpc, c]
      simp only [run, hs, hr]

/-- The wait of line 61 ends at the first read of PCLK that returns high. -/
theorem pclkLowWait_run (env : Script) (d : Nat) : ∀ (s : State) (m : Nat),
    s.pc = .pclkLowWait → s.pclkReads ≤ m → m ≤ s.pclkReads + d → env.pclk m = true →
    ∃ n m1, m1 ≤ m ∧
      run env n s = { s with pc := .sample, pclkReads := m1 + 1 } := by
  induction d with
  | zero =>
    intro s m hpc h1 h2 hm
    have : m = s.pclkReads := by omega
    subst this
    exact ⟨1, s.pclkReads, le_refl _, by simp [run, step, hpc, hm]⟩
  | succ d ih =>
    intro s m hpc h1 h2 hm
    cases c : env.pclk s.pclkReads
    · have hne : s.pclkReads ≠ m := by
        intro e; rw [e, hm] at c; exact Bool.noConfusion c
      obtain ⟨n, m1, hm1, hr⟩ := ih { s with pclkReads := s.pclkReads + 1 } m hpc
        (by simp only; omega) (by simp only; omega) hm
      refine ⟨n + 1, m1, hm1, ?_⟩
      have hs : step env s = { s with pclkReads := s.pclkReads + 1 } := by
        simp [step, hpc, c]
      simp only [run, hs, hr]
    · exact ⟨1, s.pclkReads, h1, by simp [run, step, hpc, c]⟩

/-- The wait of line 63 ends at the first read of PCLK that returns low; the
loop variable is then incremented. -/
theorem pclkHighWait_run (env : Script) (d : Nat) : ∀ (s : State) (m : Nat),
    s.pc = .pclkHighWait → s.pclkReads ≤ m → m ≤ s.pclkReads + d → env.pclk m = false →
    ∃ n m1, m1 ≤ m ∧
      run env n s = { s with pc := .pixelTest, i := s.i + 1, pclkReads := m1 + 1 } := by
  induction d with
  | zero =>
    intro s m hpc h1 h2 hm
    have : m = s.pclkReads := by omega
    subst this
    exact ⟨1, s.pclkReads, le_refl _, by simp [run, step, hpc, hm]⟩
  | succ d ih =>
    intro s m hpc h1 h2 hm
    cases c : env.pclk s.pclkReads
    · exact ⟨1, s.pclkReads, h1, by simp [run, step, hpc, c]⟩
    · have hne : s.pclkReads ≠ m := by
        intro e; rw [e, hm] at c; exact Bool.noConfusion c
      obtain ⟨n, m1, hm1, hr⟩ := ih { s with pclkReads := s.pclkReads + 1 } m hpc
        (by simp only; omega) (by simp only; omega) hm
      refine ⟨n + 1, m1, hm1, ?_⟩
      have hs : step env s = { s with pclkReads := s.pclkReads + 1 } := by
        simp [step, hpc, c]
      simp only [run, hs, hr]

/-- The polling of lines 58-59 ends at the first read of HREF that returns high. -/
theorem hrefPoll_run (env : Script) (d : Nat) : ∀ (s : State) (m : Nat),
    s.pc = .lineTest → s.bufferIndex < BUFFER_SIZE →
    s.hrefReads ≤ m → m ≤ s.hrefReads + d → env.href m = true →
    ∃ n m1, m1 ≤ m ∧
      run env n s = { s with pc := .pixelTest, i := 0, hrefReads := m1 + 1 } := by
  induction d with
  | zero =>
    intro s m hpc hbi h1 h2 hm
    have : m = s.hrefReads := by omega
    subst this
    exact ⟨2, s.hrefReads, le_refl _, by simp [run, step, hpc, hbi, hm]⟩
  | succ d ih =>
    intro s m hpc hbi h1 h2 hm
    cases c : env.href s.hrefReads
    · have hne : s.hrefReads ≠ m := by
        intro e; rw [e, hm] at c; exact Bool.noConfusion c
      obtain ⟨n, m1, hm1, hr⟩ := ih { s with hrefReads := s.hrefReads + 1 } m hpc hbi
        (by simp only; omega) (by simp only; omega) hm
      refine ⟨n + 2, m1, hm1, ?_⟩
      have hs : step env (step env s) = { s with hrefReads := s.hrefReads + 1 } := by
        simp [step, hpc, hbi, c]
      simp only [run, hs, hr]
    · exact ⟨2, s.hrefReads, h1, by simp [run, step, hpc, hbi, c]⟩

/-- One turn of the pixel loop (lines 60-63) on one pulse of PCLK. -/
theorem pixel_run (env : Script) (s : State) (N : Nat) (hpc : s.pc = .pixelTest)
    (hi : s.i < IMAGE_WIDTH) (hp : HasPulses env.pclk s.pclkReads (N + 1)) :
    ∃ n p hi2, HasPulses env.pclk p N ∧
      run env n s = { s with
        pc := .pixelTest
        i := s.i + 1
        pclkReads := p
        imageBuffer := s.imageBuffer.set s.bufferIndex (env.idr s.idrReads % 256)
        bufferIndex := (s.bufferIndex + 1) % UINT32_MOD
        idrReads := s.idrReads + 1
        stores := s.stores ++ [(s.bufferIndex, env.idr s.idrReads % 256)]
        sampledAt := s.sampledAt ++ [hi2 + 1] } := by
  obtain ⟨hi1, lo, h1, h2, h3, h4, h5⟩ := hp
  have e1 : step env s = { s with pc := .pclkLowWait } := by simp [step, hpc, hi]
  obtain ⟨n1, m1, hm1, r1⟩ := pclkLowWait_run env (hi1 - s.pclkReads)
    { s with pc := .pclkLowWait } hi1 rfl h1 (by simp only; omega) h3
  obtain ⟨n2, m2, hm2, r2⟩ := pclkHighWait_run env (lo - (m1 + 1))
    (step env { s with pc := .sample, pclkReads := m1 + 1 }) lo (by simp [step])
    (by simp only [step]; omega) (by simp only [step]; omega) h4
  refine ⟨1 + n1 + 1 + n2, m2 + 1, m1, HasPulses_mono _ _ _ _ h5 (by omega), ?_⟩
  rw [run_add, run_add, run_add]
  simp only [run, e1, r1, r2]
  simp [step]

/-- The rest of a line: `k` turns of the pixel loop on `k` pulses of PCLK, then
back to the test of line 58. -/
theorem line_run (env : Script) (M : Nat) (k : Nat) : ∀ s : State,
    s.pc = .pixelTest → s.i + k = IMAGE_WIDTH → s.bufferIndex + k < UINT32_MOD →
    HasPulses env.pclk s.pclkReads (k + M) →
    ∃ n, (run env n s).pc = .lineTest ∧ (run env n s).bufferIndex = s.bufferIndex + k ∧
      (run env n s).hrefReads = s.hrefReads ∧
      (run env n s).stores.length = s.stores.length + k ∧
      HasPulses env.pclk (run env n s).pclkReads M := by
  induction k with
  | zero =>
    intro s hpc hi hb hp
    have e1 : step env s = { s with pc := .lineTest } := by
      have : ¬ s.i < IMAGE_WIDTH := by omega
      simp [step, hpc, this]
    exact ⟨1, by simp [run, e1], by simp [run, e1], by simp [run, e1], by simp [run, e1],
      by simpa [run, e1] using hp⟩
  | succ k ih =>
    intro s hpc hi hb hp
    have hp2 : HasPulses env.pclk s.pclkReads ((k + M) + 1) := by
      have : k + 1 + M = k + M + 1 := by omega
      rw [this] at hp; exact hp
    obtain ⟨n1, p, _, hp3, r1⟩ := pixel_run env s (k + M) hpc (by omega) hp2
    have hmod : (s.bufferIndex + 1) % UINT32_MOD = s.bufferIndex + 1 :=
      Nat.mod_eq_of_lt (by omega)
    obtain ⟨n2, q1, q2, q3, q4, q5⟩ := ih (run env n1 s) (by rw [r1]) (by rw [r1]; simp only; omega)
      (by rw [r1]; simp only; omega) (by rw [r1]; exact hp3)
    refine ⟨n1 + n2, ?_⟩
    rw [run_add]
    refine ⟨q1, ?_, ?_, ?_, q5⟩
    · rw [q2, r1]; simp only; omega
    · rw [q3, r1]
    · rw [q4, r1]; simp only [List.length_append, List.length_singleton]; omega

/-- The line loop (lines 58-66) with `j` lines still to capture. -/
theorem frame_run (env : Script) (hH : ∀ n, ∃ m, n ≤ m ∧ env.href m = true) (j : Nat) :
    ∀ s : State, s.pc = .lineTest → s.bufferIndex + IMAGE_WIDTH * j = BUFFER_SIZE →
    HasPulses env.pclk s.pclkReads (IMAGE_WIDTH * j) →
    ∃ n, (run env n s).pc = .done := by
  induction j with
  | zero =>
    intro s hpc hb _
    have : ¬ s.bufferIndex < BUFFER_SIZE := by omega
    exact ⟨1, by simp [run, step, hpc, this]⟩
  | succ j ih =>
    intro s hpc hb hp
    have hlt : s.bufferIndex < BUFFER_SIZE := by
      simp only [BUFFER_SIZE, IMAGE_WIDTH, IMAGE_HEIGHT] at *
      omega
    obtain ⟨m, hm1, hm2⟩ := hH s.hrefReads
    obtain ⟨n1, m1, _, r1⟩ := hrefPoll_run env (m - s.hrefReads) s m hpc hlt hm1 (by omega) hm2
    have hp2 : HasPulses env.pclk s.pclkReads (IMAGE_WIDTH + IMAGE_WIDTH * j) := by
      have : IMAGE_WIDTH * (j + 1) = IMAGE_WIDTH + IMAGE_WIDTH * j := by ring
      rw [this] at hp; exact hp
    obtain ⟨n2, q1, q2, _, _, q5⟩ := line_run env (IMAGE_WIDTH * j) IMAGE_WIDTH (run env n1 s)
      (by rw [r1]) (by rw [r1]; simp only; omega)
      (by rw [r1]; simp only [BUFFER_SIZE, IMAGE_WIDTH, IMAGE_HEIGHT, UINT32_MOD] at *; omega)
      (by rw [r1]; exact hp2)
    obtain ⟨n3, q⟩ := ih (run env n2 (run env n1 s)) q1
      (by rw [q2, r1]; simp only [BUFFER_SIZE, IMAGE_WIDTH, IMAGE_HEIGHT] at *; omega) q5
    exact ⟨n1 + n2 + n3, by rw [run_add, run_add]; exact q⟩

/-- The function returns on every script whose VSYNC is read high and later
low, whose HREF is read high again and again, and whose PCLK holds a pulse for
each pixel. -/
theorem capture_returns (env : Script) (buf : List Nat) (idx : Nat)
    (hV : ∃ a b, a < b ∧ env.vsync a = true ∧ env.vsync b = false)
    (hH : ∀ n, ∃ m, n ≤ m ∧ env.href m = true)
    (hP : HasPulses env.pclk 0 BUFFER_SIZE) :
    ∃ n, (run env (n + 1) (State.start buf idx)).pc = .done := by
  obtain ⟨a, b, hab, ha, hb⟩ := hV
  obtain ⟨n1, m1, hm1, r1⟩ := vsyncLowWait_run env a (step env (State.start buf idx)) a
    (by simp [step, State.start]) (by simp [step, State.start]) (by simp [step, State.start]) ha
  obtain ⟨n2, m2, _, r2⟩ := vsyncHighWait_run env (b - (m1 + 1))
    (run env n1 (step env (State.start buf idx))) b
    (by rw [r1]) (by rw [r1]; simp only; omega) (by rw [r1]; simp only; omega) hb
  obtain ⟨n3, q⟩ := frame_run env hH IMAGE_HEIGHT
    (run env n2 (run env n1 (step env (State.start buf idx))))
    (by rw [r2]) (by rw [r2, r1]; simp [step, State.start, BUFFER_SIZE])
    (by rw [r2, r1]; simpa [step, State.start, BUFFER_SIZE] using hP)
  refine ⟨n1 + n2 + n3, ?_⟩
  have : n1 + n2 + n3 + 1 = 1 + n1 + n2 + n3 := by omega
  rw [this, run_add, run_add, run_add]
  exact q

/-! ## Consequences of the invariant -/

theorem Inv_bounds (env : Script) (s : State) (h : Inv env s) :
    s.bufferIndex ≤ BUFFER_SIZE ∧
    (s.pc = .sample → s.bufferIndex < BUFFER_SIZE) ∧
    (s.pc = .hrefPoll → s.bufferIndex + IMAGE_WIDTH ≤ BUFFER_SIZE) ∧
    (s.pc = .pixelTest → s.i = 0 → s.bufferIndex + IMAGE_WIDTH ≤ BUFFER_SIZE) ∧
    (s.pc = .done → s.bufferIndex = BUFFER_SIZE ∧ highPolls env s = IMAGE_HEIGHT) ∧
    s.pc ≠ .entry := by
  obtain ⟨pc, bi, buf, i, vr, hr, pr, ir, st, sa⟩ := s
  obtain ⟨-, -, -, -, h5⟩ := h
  cases pc <;> simp only [highPolls, BUFFER_SIZE, IMAGE_WIDTH, IMAGE_HEIGHT] at * <;>
    refine ⟨by omega, ?_, ?_, ?_, ?_, ?_⟩ <;> simp <;> omega

theorem Inv_done (env : Script) (s : State) (h : Inv env s) (hd : s.pc = .done) :
    s.bufferIndex = BUFFER_SIZE ∧ s.idrReads = BUFFER_SIZE ∧
    s.stores = (List.range BUFFER_SIZE).map (fun k => (k, env.idr k % 256)) ∧
    s.imageBuffer = (List.range BUFFER_SIZE).map (fun k => env.idr k % 256) := by
  have hbi := ((Inv_bounds env s h).2.2.2.2.1 hd).1
  obtain ⟨h1, h2, h3, h4, -⟩ := h
  rw [hbi] at h2 h3 h4
  refine ⟨hbi, h2, h3, ?_⟩
  rw [← h4, ← h1, List.take_length]

/-- A step that is not the store of line 62 changes neither the cursor, nor
the buffer, nor the list of stores, nor the number of reads of the data bus. -/
theorem step_frame (env : Script) (s : State) (h1 : s.pc ≠ .sample) :
    (s.pc ≠ .entry → (step env s).bufferIndex = s.bufferIndex) ∧
    (step env s).imageBuffer = s.imageBuffer ∧
    (step env s).stores = s.stores ∧ (step env s).idrReads = s.idrReads := by
  obtain ⟨pc, bi, buf, i, vr, hr, pr, ir, st, sa⟩ := s
  cases pc <;> first
    | exact absurd rfl h1
    | exact ⟨fun h2 => absurd rfl h2, rfl, rfl, rfl⟩
    | (unfold step; split <;> simp_all <;> split <;> simp)

theorem step_sampledAt (env : Script) (s : State) (h1 : s.pc ≠ .sample) :
    (step env s).sampledAt = s.sampledAt := by
  obtain ⟨pc, bi, buf, i, vr, hr, pr, ir, st, sa⟩ := s
  cases pc <;> first
    | exact absurd rfl h1
    | rfl
    | (simp only [step]; split <;> rfl)

/-- The step of line 62: one read of the data bus, one store at the cursor. -/
theorem step_sample (env : Script) (s : State) (h : s.pc = .sample) :
    step env s = { s with
      pc := .pclkHighWait
      imageBuffer := s.imageBuffer.set s.bufferIndex (env.idr s.idrReads % 256)
      bufferIndex := (s.bufferIndex + 1) % UINT32_MOD
      idrReads := s.idrReads + 1
      stores := s.stores ++ [(s.bufferIndex, env.idr s.idrReads % 256)]
      sampledAt := s.sampledAt ++ [s.pclkReads] } := by
  simp [step, h]

/-- Line 62 is reached exactly from the wait of line 61, on a read of PCLK
that returns high. -/
theorem step_to_sample (env : Script) (s : State) :
    (step env s).pc = .sample ↔ (s.pc = .pclkLowWait ∧ env.pclk s.pclkReads = true) := by
  obtain ⟨pc, bi, buf, i, vr, hr, pr, ir, st, sa⟩ := s
  cases pc <;> simp only [step] <;> (try split) <;> simp_all

theorem step_cursor (env : Script) (s : State) (h : Inv env s) :
    (step env s).bufferIndex = s.bufferIndex ∨
    (step env s).bufferIndex = s.bufferIndex + 1 := by
  by_cases hs : s.pc = .sample
  · right
    have hlt := (Inv_bounds env s h).2.1 hs
    rw [step_sample env s hs]
    simp only
    apply Nat.mod_eq_of_lt
    simp only [BUFFER_SIZE, IMAGE_WIDTH, IMAGE_HEIGHT, UINT32_MOD] at *
    omega
  · left
    exact (step_frame env s hs).1 (Inv_bounds env s h).2.2.2.2.2

theorem reach_succ (env : Script) (buf : List Nat) (idx : Nat) (n : Nat) :
    reach env buf idx (n + 1) = step env (reach env buf idx n) :=
  run_succ_last env n _

theorem Inv_reach_succ (env : Script) (buf : List Nat) (idx : Nat)
    (hb : buf.length = BUFFER_SIZE) (n : Nat) : Inv env (reach env buf idx (n + 1)) :=
  Inv_reach env buf idx hb n

theorem reach_zero_or_Inv (env : Script) (buf : List Nat) (idx : Nat)
    (hb : buf.length = BUFFER_SIZE) (n : Nat) :
    reach env buf idx n = State.start buf idx ∨ Inv env (reach env buf idx n) := by
  cases n with
  | zero => left; rfl
  | succ n => right; exact Inv_reach_succ env buf idx hb n

theorem captureImage_some (env : Script) (fuel : Nat) (buf : List Nat) (idx : Nat) (s : State)
    (h : captureImage env fuel buf idx = some s) :
    s = reach env buf idx fuel ∧ s.pc = .done ∧ ∃ n, fuel = n + 1 := by
  unfold captureImage at h
  simp only at h
  split at h
  · next hd =>
    have hs : reach env buf idx fuel = s := Option.some.inj h
    refine ⟨hs.symm, hs ▸ hd, ?_⟩
    cases fuel with
    | zero => simp [run, State.start] at hd
    | succ n => exact ⟨n, rfl⟩
  · exact Option.noConfusion h

/-! ## One store per pulse of PCLK -/

theorem risesBefore_succ (pclk : Nat → Bool) (n : Nat) :
    risesBefore pclk (n + 1) = risesBefore pclk n + (if isRise pclk n = true then 1 else 0) :=
  countHigh_succ _ n

theorem isRise_low (pclk : Nat → Bool) (n : Nat) (h : pclk n = false) : isRise pclk n = false := by
  simp [isRise, h]

theorem isRise_after_high (pclk : Nat → Bool) (n : Nat) (h1 : 1 ≤ n) (h : pclk (n - 1) = true) :
    isRise pclk n = false := by
  have : n ≠ 0 := by omega
  simp [isRise, h, this]

theorem isRise_after_low (pclk : Nat → Bool) (n : Nat) (hn : pclk n = true)
    (h : n = 0 ∨ pclk (n - 1) = false) : isRise pclk n = true := by
  rcases h with h | h
  · subst h; simp [isRise, hn]
  · simp [isRise, hn, h]

theorem PulseInv_start (env : Script) (buf : List Nat) (idx : Nat) :
    PulseInv env (State.start buf idx) := by
  refine ⟨rfl, ?_, ?_⟩
  · intro k hk
    simp [State.start] at hk
  · simp [State.start, risesBefore, countHigh]

theorem PulseInv_step (env : Script) (s : State) (h : PulseInv env s) :
    PulseInv env (step env s) := by
  obtain ⟨pc, bi, buf, i, vr, hr, pr, ir, st, sa⟩ := s
  obtain ⟨h1, h2, h3⟩ := h
  simp only at h1 h2 h3
  cases pc
  case entry => exact ⟨h1, h2, h3⟩
  case vsyncLowWait =>
    cases c : env.vsync vr <;>
      simp only [step, c, Bool.true_eq_false, if_true, if_false] <;>
      exact ⟨h1, h2, h3⟩
  case vsyncHighWait =>
    cases c : env.vsync vr <;>
      simp only [step, c, Bool.false_eq_true, if_true, if_false] <;>
      exact ⟨h1, h2, h3⟩
  case lineTest =>
    by_cases c : bi < BUFFER_SIZE <;> simp only [step, c, if_true, if_false] <;>
      exact ⟨h1, h2, h3⟩
  case hrefPoll =>
    cases c : env.href hr <;>
      simp only [step, c, Bool.false_eq_true, if_true, if_false] <;>
      exact ⟨h1, h2, h3⟩
  case pixelTest =>
    by_cases c : i < IMAGE_WIDTH <;> simp only [step, c, if_true, if_false] <;>
      exact ⟨h1, h2, h3⟩
  case pclkLowWait =>
    cases c : env.pclk pr <;>
      simp only [step, c, Bool.true_eq_false, if_true, if_false]
    · refine ⟨h1, h2, ?_, Or.inr ?_⟩
      · show risesBefore env.pclk (pr + 1) = st.length
        rw [risesBefore_succ, isRise_low _ _ c]
        simpa using h3.1
      · show env.pclk (pr + 1 - 1) = false
        simpa using c
    · refine ⟨h1, h2, ?_, ?_, ?_⟩
      · show 1 ≤ pr + 1
        omega
      · show isRise env.pclk (pr + 1 - 1) = true
        simpa using isRise_after_low _ _ c h3.2
      · show risesBefore env.pclk (pr + 1 - 1) = st.length
        simpa using h3.1
  case sample =>
    obtain ⟨q1, q2, q3⟩ := h3
    obtain ⟨q, rfl⟩ : ∃ q, pr = q + 1 := ⟨pr - 1, by omega⟩
    simp only [Nat.add_sub_cancel] at q2 q3
    simp only [step]
    refine ⟨?_, ?_, ?_, ?_, ?_⟩
    · simp only [List.length_append, List.length_singleton]; omega
    · intro k hk
      simp only [List.length_append, List.length_singleton] at hk
      by_cases hk2 : k < sa.length
      · obtain ⟨r, e1, e2, e3⟩ := h2 k hk2
        exact ⟨r, by rw [List.getElem?_append_left hk2]; exact e1, e2, e3⟩
      · have hk3 : k = sa.length := by omega
        refine ⟨q, ?_, q2, ?_⟩
        · rw [hk3]; simp
        · rw [q3, hk3, h1]
    · show risesBefore env.pclk (q + 1) = (st ++ [(bi, env.idr ir % 256)]).length
      rw [risesBefore_succ, q2, q3]
      simp
    · show 1 ≤ q + 1
      omega
    · show env.pclk (q + 1 - 1) = true
      have := q2
      simp only [isRise, Bool.and_eq_true] at this
      simpa using this.1
  case pclkHighWait =>
    obtain ⟨q1, q2, q3⟩ := h3
    cases c : env.pclk pr <;>
      simp only [step, c, Bool.false_eq_true, if_true, if_false]
    · refine ⟨h1, h2, ?_, Or.inr ?_⟩
      · show risesBefore env.pclk (pr + 1) = st.length
        rw [risesBefore_succ, isRise_low _ _ c]
        simpa using q1
      · show env.pclk (pr + 1 - 1) = false
        simpa using c
    · refine ⟨h1, h2, ?_, ?_, ?_⟩
      · show risesBefore env.pclk (pr + 1) = st.length
        rw [risesBefore_succ, isRise_after_high _ _ q2 q3]
        simpa using q1
      · show 1 ≤ pr + 1
        omega
      · show env.pclk (pr + 1 - 1) = true
        simpa using c
  case done => exact ⟨h1, h2, h3⟩

theorem PulseInv_run (env : Script) (n : Nat) (s : State) (h : PulseInv env s) :
    PulseInv env (run env n s) := by
  induction n generalizing s with
  | zero => exact h
  | succ n ih => exact ih _ (PulseInv_step env s h)

/-- In every state of a call, store `k` was made right after the read of PCLK
that begins pulse `k`. -/
theorem PulseInv_reach (env : Script) (buf : List Nat) (idx : Nat) (n : Nat) :
    PulseInv env (reach env buf idx n) :=
  PulseInv_run env n _ (PulseInv_start env buf idx)

theorem risesBefore_mono (pclk : Nat → Bool) (a b : Nat) (h : a ≤ b) :
    risesBefore pclk a ≤ risesBefore pclk b := by
  induction b with
  | zero =>
    have : a = 0 := by omega
    rw [this]
  | succ b ih =>
    by_cases c : a = b + 1
    · rw [c]
    · have := ih (by omega)
      rw [risesBefore_succ]
      omega

/-- Between two stores in a row PCLK was read low: the stores are made in
different pulses. -/
theorem samples_apart (env : Script) (s : State) (h : PulseInv env s) (k : Nat)
    (hk : k + 1 < s.sampledAt.length) :
    ∃ r r2 l, s.sampledAt[k]? = some (r + 1) ∧ s.sampledAt[k + 1]? = some (r2 + 1) ∧
      r < l ∧ l < r2 ∧ env.pclk r = true ∧ env.pclk l = false ∧ env.pclk r2 = true := by
  obtain ⟨r, a1, a2, a3⟩ := h.2.1 k (by omega)
  obtain ⟨r2, b1, b2, b3⟩ := h.2.1 (k + 1) hk
  have hlt : r < r2 := by
    by_contra hc
    have := risesBefore_mono env.pclk r2 r (by omega)
    omega
  simp only [isRise, Bool.and_eq_true, Bool.or_eq_true, beq_iff_eq, Bool.not_eq_true'] at a2 b2
  have hl : env.pclk (r2 - 1) = false := by
    rcases b2.2 with e | e
    · omega
    · exact e
  have hne : r2 - 1 ≠ r := by
    intro e
    rw [e, a2.1] at hl
    exact Bool.noConfusion hl
  exact ⟨r, r2, r2 - 1, a1, b1, by omega, by omega, a2.1, hl, b2.1⟩

/-! ## The example script -/

theorem pulseScript_vsync : ∃ a b, a < b ∧ pulseScript.vsync a = true ∧ pulseScript.vsync b = false :=
  ⟨0, 1, by decide, rfl, rfl⟩

theorem pulseScript_href : ∀ n, ∃ m, n ≤ m ∧ pulseScript.href m = true := by
  intro n
  refine ⟨3 * n + 2, by omega, ?_⟩
  have : (3 * n + 2) % 3 = 2 := by omega
  simp [pulseScript, this]

theorem pulseScript_pclk (N : Nat) : ∀ a, HasPulses pulseScript.pclk a N := by
  induction N with
  | zero => intro a; trivial
  | succ N ih =>
    intro a
    refine ⟨2 * a, 2 * a + 1, by omega, by omega, ?_, ?_, ih _⟩
    · have : (2 * a) % 2 = 0 := by omega
      simp [pulseScript, this]
    · have : (2 * a + 1) % 2 = 1 := by omega
      simp [pulseScript, this]

/-! ## The claims on the capture -/

/-- C1: on every script in which VSYNC is read high and later low, HREF is
read high again whenever it is polled, and PCLK holds at least
`IMAGE_WIDTH * IMAGE_HEIGHT` = 76800 pulses, `captureImage` returns, having made
exactly 76800 stores, at the indices 0, 1, ..., 76799 in this order, and cell
`k` of the buffer holds the `k`-th value read from the data bus, reduced to 8
bits. The data bus is read, and a store made, exactly at line 62, which is
reached exactly when the wait of line 61 reads PCLK high. Store `k` is the
sample of pulse `k`: it was made right after the read of PCLK that begins
pulse `k` (a read that returns high, the first read or one that follows a
read that returned low, with exactly `k` such reads before it), so that each
pulse is sampled once and between two stores in a row PCLK was read low. -/
theorem C1_capture_fills_buffer (env : Script) (buf : List Nat) (idx : Nat)
    (hb : buf.length = BUFFER_SIZE)
    (hV : ∃ a b, a < b ∧ env.vsync a = true ∧ env.vsync b = false)
    (hH : ∀ n, ∃ m, n ≤ m ∧ env.href m = true)
    (hP : HasPulses env.pclk 0 (IMAGE_WIDTH * IMAGE_HEIGHT)) :
    ∃ fuel s, captureImage env fuel buf idx = some s ∧
      s.stores.length = 76800 ∧
      s.stores.map Prod.fst = List.range 76800 ∧
      s.stores.map Prod.snd = (List.range 76800).map (fun k => env.idr k % 256) ∧
      s.imageBuffer.length = 76800 ∧
      (∀ k, k < 76800 → s.imageBuffer[k]? = some (env.idr k % 256)) ∧
      s.idrReads = 76800 ∧
      (∀ t : State, (step env t).pc = .sample ↔
        (t.pc = .pclkLowWait ∧ env.pclk t.pclkReads = true)) ∧
      (∀ t : State, t.pc = .sample →
        (step env t).idrReads = t.idrReads + 1 ∧
        (step env t).stores = t.stores ++ [(t.bufferIndex, env.idr t.idrReads % 256)]) ∧
      (∀ t : State, t.pc ≠ .sample →
        (step env t).idrReads = t.idrReads ∧ (step env t).stores = t.stores) ∧
      s.sampledAt.length = 76800 ∧
      (∀ k, k < 76800 →
        ∃ r, s.sampledAt[k]? = some (r + 1) ∧ isRise env.pclk r = true ∧
          risesBefore env.pclk r = k) ∧
      (∀ k, k + 1 < 76800 →
        ∃ r r2 l, s.sampledAt[k]? = some (r + 1) ∧ s.sampledAt[k + 1]? = some (r2 + 1) ∧
          r < l ∧ l < r2 ∧ env.pclk r = true ∧ env.pclk l = false ∧ env.pclk r2 = true) ∧
      (∀ t : State, t.pc = .sample → (step env t).sampledAt = t.sampledAt ++ [t.pclkReads]) ∧
      (∀ t : State, t.pc ≠ .sample → (step env t).sampledAt = t.sampledAt) := by
  obtain ⟨n, hn⟩ := capture_returns env buf idx hV hH hP
  have hpi := PulseInv_reach env buf idx (n + 1)
  simp only [reach] at hpi
  have hinv := Inv_reach env buf idx hb n
  obtain ⟨d1, d2, d3, d4⟩ := Inv_done env _ hinv hn
  have e : BUFFER_SIZE = 76800 := by decide
  rw [e] at d1 d2 d3 d4
  have hsl : (run env (n + 1) (State.start buf idx)).sampledAt.length = 76800 := by
    rw [hpi.1, d3]; simp
  refine ⟨n + 1, run env (n + 1) (State.start buf idx), ?_, ?_, ?_, ?_, ?_, ?_, d2, ?_, ?_, ?_,
    hsl, ?_, ?_, ?_, ?_⟩
  · simp [captureImage, hn]
  · rw [d3]; simp
  · rw [d3, List.map_map]; exact List.map_id _
  · rw [d3, List.map_map]; rfl
  · rw [d4]; simp
  · intro k hk
    rw [d4]
    simp [hk]
  · exact step_to_sample env
  · intro t ht
    rw [step_sample env t ht]
    exact ⟨rfl, rfl⟩
  · intro t h1
    exact ⟨(step_frame env t h1).2.2.2, (step_frame env t h1).2.2.1⟩
  · intro k hk
    exact hpi.2.1 k (by omega)
  · intro k hk
    exact samples_apart env _ hpi k (by omega)
  · intro t ht
    rw [step_sample env t ht]
  · intro t ht
    exact step_sampledAt env t ht

/-- C1 on the example script, from a cleared buffer and a stale cursor. -/
theorem C1_capture_fills_buffer_witness :
    ∃ fuel s, captureImage pulseScript fuel (List.replicate BUFFER_SIZE 0) 12345 = some s ∧
      s.stores.length = 76800 ∧
      s.stores.map Prod.fst = List.range 76800 ∧
      s.stores.map Prod.snd = (List.range 76800).map (fun k => pulseScript.idr k % 256) ∧
      s.imageBuffer.length = 76800 ∧
      (∀ k, k < 76800 → s.imageBuffer[k]? = some (pulseScript.idr k % 256)) ∧
      s.idrReads = 76800 ∧
      (∀ t : State, (step pulseScript t).pc = .sample ↔
        (t.pc = .pclkLowWait ∧ pulseScript.pclk t.pclkReads = true)) ∧
      (∀ t : State, t.pc = .sample →
        (step pulseScript t).idrReads = t.idrReads + 1 ∧
        (step pulseScript t).stores
          = t.stores ++ [(t.bufferIndex, pulseScript.idr t.idrReads % 256)]) ∧
      (∀ t : State, t.pc ≠ .sample →
        (step pulseScript t).idrReads = t.idrReads ∧ (step pulseScript t).stores = t.stores) ∧
      s.sampledAt.length = 76800 ∧
      (∀ k, k < 76800 →
        ∃ r, s.sampledAt[k]? = some (r + 1) ∧ isRise pulseScript.pclk r = true ∧
          risesBefore pulseScript.pclk r = k) ∧
      (∀ k, k + 1 < 76800 →
        ∃ r r2 l, s.sampledAt[k]? = some (r + 1) ∧ s.sampledAt[k + 1]? = some (r2 + 1) ∧
          r < l ∧ l < r2 ∧ pulseScript.pclk r = true ∧ pulseScript.pclk l = false ∧
          pulseScript.pclk r2 = true) ∧
      (∀ t : State, t.pc = .sample →
        (step pulseScript t).sampledAt = t.sampledAt ++ [t.pclkReads]) ∧
      (∀ t : State, t.pc ≠ .sample → (step pulseScript t).sampledAt = t.sampledAt) :=
  C1_capture_fills_buffer pulseScript (List.replicate BUFFER_SIZE 0) 12345
    (List.length_replicate _ _) pulseScript_vsync pulseScript_href (pulseScript_pclk _ 0)

/-- C2: on every script, every store made by `captureImage` is at an index
between 0 and `BUFFER_SIZE - 1` = 76799: the store about to be made at line 62
is within the buffer, and the pixel loop is only entered (after a poll of HREF
at line 59, with `i = 0` at line 60) with
`bufferIndex <= BUFFER_SIZE - IMAGE_WIDTH`. -/
theorem C2_stores_within_buffer (env : Script) (buf : List Nat) (idx : Nat)
    (hb : buf.length = BUFFER_SIZE) (n : Nat) :
    (∀ e ∈ (reach env buf idx n).stores, e.1 ≤ BUFFER_SIZE - 1 ∧ e.1 ≤ 76799) ∧
    ((reach env buf idx n).pc = .sample →
      (reach env buf idx n).bufferIndex < (reach env buf idx n).imageBuffer.length ∧
      (reach env buf idx n).bufferIndex ≤ BUFFER_SIZE - 1) ∧
    ((reach env buf idx n).pc = .hrefPoll →
      (reach env buf idx n).bufferIndex ≤ BUFFER_SIZE - IMAGE_WIDTH) ∧
    ((reach env buf idx n).pc = .pixelTest → (reach env buf idx n).i = 0 →
      (reach env buf idx n).bufferIndex ≤ BUFFER_SIZE - IMAGE_WIDTH) := by
  rcases reach_zero_or_Inv env buf idx hb n with h0 | hinv
  · rw [h0]
    simp [State.start]
  · obtain ⟨b1, b2, b3, b4, -, -⟩ := Inv_bounds env _ hinv
    obtain ⟨i1, -, i3, -, -⟩ := hinv
    have e : BUFFER_SIZE = 76800 := by decide
    have w : IMAGE_WIDTH = 320 := rfl
    refine ⟨?_, ?_, ?_, ?_⟩
    · intro x hx
      rw [i3] at hx
      obtain ⟨k, hk, rfl⟩ := List.mem_map.1 hx
      have := List.mem_range.1 hk
      simp only
      omega
    · intro hpc
      have := b2 hpc
      omega
    · intro hpc
      have := b3 hpc
      omega
    · intro hpc hi
      have := b4 hpc hi
      omega

/-- C2 on the example script, 5000 steps into the call. -/
theorem C2_stores_within_buffer_witness :
    (∀ e ∈ (reach pulseScript (List.replicate BUFFER_SIZE 255) 99999 5000).stores,
      e.1 ≤ BUFFER_SIZE - 1 ∧ e.1 ≤ 76799) ∧
    ((reach pulseScript (List.replicate BUFFER_SIZE 255) 99999 5000).pc = .sample →
      (reach pulseScript (List.replicate BUFFER_SIZE 255) 99999 5000).bufferIndex
        < (reach pulseScript (List.replicate BUFFER_SIZE 255) 99999 5000).imageBuffer.length ∧
      (reach pulseScript (List.replicate BUFFER_SIZE 255) 99999 5000).bufferIndex
        ≤ BUFFER_SIZE - 1) ∧
    ((reach pulseScript (List.replicate BUFFER_SIZE 255) 99999 5000).pc = .hrefPoll →
      (reach pulseScript (List.replicate BUFFER_SIZE 255) 99999 5000).bufferIndex
        ≤ BUFFER_SIZE - IMAGE_WIDTH) ∧
    ((reach pulseScript (List.replicate BUFFER_SIZE 255) 99999 5000).pc = .pixelTest →
      (reach pulseScript (List.replicate BUFFER_SIZE 255) 99999 5000).i = 0 →
      (reach pulseScript (List.replicate BUFFER_SIZE 255) 99999 5000).bufferIndex
        ≤ BUFFER_SIZE - IMAGE_WIDTH) :=
  C2_stores_within_buffer pulseScript (List.replicate BUFFER_SIZE 255) 99999
    (List.length_replicate _ _) 5000

/-- While VSYNC reads low the function stays in the wait of line 55. -/
theorem vsync_low_stuck (env : Script) (buf : List Nat) (idx : Nat)
    (hv : ∀ n, env.vsync n = false) (n : Nat) :
    reach env buf idx (n + 1) =
      { State.start buf idx with pc := .vsyncLowWait, bufferIndex := 0, vsyncReads := n } := by
  induction n with
  | zero => rfl
  | succ n ih =>
    rw [reach_succ, ih]
    simp [step, hv, State.start]

/-- C6: on every script on which VSYNC never asserts (every read of VSYNC
returns low), `captureImage` makes no store and never returns: after any
number of steps past the reset it is in the wait of line 55, with the buffer
as it was at the call and `bufferIndex` equal to 0. -/
theorem C6_no_vsync_no_return (env : Script) (buf : List Nat) (idx : Nat)
    (hv : ∀ n, env.vsync n = false) :
    (∀ n, (reach env buf idx (n + 1)).pc = .vsyncLowWait ∧
      (reach env buf idx (n + 1)).stores = [] ∧
      (reach env buf idx (n + 1)).imageBuffer = buf ∧
      (reach env buf idx (n + 1)).bufferIndex = 0) ∧
    (∀ n, (reach env buf idx n).stores = [] ∧ (reach env buf idx n).imageBuffer = buf ∧
      (reach env buf idx n).pc ≠ .done) ∧
    (∀ fuel, captureImage env fuel buf idx = none) := by
  have h1 : ∀ n, (reach env buf idx n).stores = [] ∧ (reach env buf idx n).imageBuffer = buf ∧
      (reach env buf idx n).pc ≠ .done := by
    intro n
    cases n with
    | zero => simp [reach, run, State.start]
    | succ n => rw [vsync_low_stuck env buf idx hv n]; simp [State.start]
  refine ⟨?_, h1, ?_⟩
  · intro n
    rw [vsync_low_stuck env buf idx hv n]
    simp [State.start]
  · intro fuel
    have := (h1 fuel).2.2
    simp only [reach] at this
    simp [captureImage, this]

/-- C6 on a script whose VSYNC is always low. -/
theorem C6_no_vsync_no_return_witness :
    (∀ n, (reach deadScript [1, 2, 3] 77 (n + 1)).pc = .vsyncLowWait ∧
      (reach deadScript [1, 2, 3] 77 (n + 1)).stores = [] ∧
      (reach deadScript [1, 2, 3] 77 (n + 1)).imageBuffer = [1, 2, 3] ∧
      (reach deadScript [1, 2, 3] 77 (n + 1)).bufferIndex = 0) ∧
    (∀ n, (reach deadScript [1, 2, 3] 77 n).stores = [] ∧
      (reach deadScript [1, 2, 3] 77 n).imageBuffer = [1, 2, 3] ∧
      (reach deadScript [1, 2, 3] 77 n).pc ≠ .done) ∧
    (∀ fuel, captureImage deadScript fuel [1, 2, 3] 77 = none) :=
  C6_no_vsync_no_return deadScript [1, 2, 3] 77 (fun _ => rfl)

/-- C7: from any value of `bufferIndex` at the call, the cursor is 0 after the
reset of line 54; in every state from then on it is at most `BUFFER_SIZE`, and
a step leaves it unchanged or adds exactly 1; the test of line 58 leaves the
loop exactly when the cursor equals `BUFFER_SIZE`, and `captureImage` returns
only with `bufferIndex = BUFFER_SIZE` = 76800. -/
theorem C7_cursor_invariant (env : Script) (buf : List Nat) (idx : Nat)
    (hb : buf.length = BUFFER_SIZE) (n : Nat) :
    (reach env buf idx 1).bufferIndex = 0 ∧
    (reach env buf idx (n + 1)).bufferIndex ≤ BUFFER_SIZE ∧
    ((reach env buf idx (n + 2)).bufferIndex = (reach env buf idx (n + 1)).bufferIndex ∨
      (reach env buf idx (n + 2)).bufferIndex = (reach env buf idx (n + 1)).bufferIndex + 1) ∧
    ((reach env buf idx (n + 1)).pc = .done →
      (reach env buf idx (n + 1)).bufferIndex = BUFFER_SIZE) ∧
    ((reach env buf idx (n + 1)).pc = .lineTest →
      ((reach env buf idx (n + 2)).pc = .done ↔
        (reach env buf idx (n + 1)).bufferIndex = BUFFER_SIZE)) ∧
    (∀ fuel r, captureImage env fuel buf idx = some r → r.bufferIndex = 76800) := by
  have hinv := Inv_reach_succ env buf idx hb n
  have hbd := Inv_bounds env _ hinv
  refine ⟨rfl, hbd.1, ?_, fun hd => (hbd.2.2.2.2.1 hd).1, ?_, ?_⟩
  · rw [reach_succ env buf idx (n + 1)]
    exact step_cursor env _ hinv
  · intro hpc
    rw [reach_succ env buf idx (n + 1)]
    have hle := hbd.1
    by_cases c : (reach env buf idx (n + 1)).bufferIndex < BUFFER_SIZE
    · have : (step env (reach env buf idx (n + 1))).pc = .hrefPoll := by simp [step, hpc, c]
      rw [this]
      constructor
      · intro h; exact Pc.noConfusion h
      · intro h; omega
    · have : (step env (reach env buf idx (n + 1))).pc = .done := by simp [step, hpc, c]
      rw [this]
      constructor
      · intro _; omega
      · intro _; rfl
  · intro fuel r hr
    obtain ⟨h1, h2, m, hm⟩ := captureImage_some env fuel buf idx r hr
    subst hm
    have := (Inv_bounds env _ (Inv_reach_succ env buf idx hb m)).2.2.2.2.1 (h1 ▸ h2)
    rw [h1, this.1]
    decide

/-- C7 on the example script, from a cursor far beyond the buffer. -/
theorem C7_cursor_invariant_witness :
    (reach pulseScript (List.replicate BUFFER_SIZE 0) 4000000000 1).bufferIndex = 0 ∧
    (reach pulseScript (List.replicate BUFFER_SIZE 0) 4000000000 (9 + 1)).bufferIndex
      ≤ BUFFER_SIZE ∧
    ((reach pulseScript (List.replicate BUFFER_SIZE 0) 4000000000 (9 + 2)).bufferIndex
        = (reach pulseScript (List.replicate BUFFER_SIZE 0) 4000000000 (9 + 1)).bufferIndex ∨
      (reach pulseScript (List.replicate BUFFER_SIZE 0) 4000000000 (9 + 2)).bufferIndex
        = (reach pulseScript (List.replicate BUFFER_SIZE 0) 4000000000 (9 + 1)).bufferIndex + 1) ∧
    ((reach pulseScript (List.replicate BUFFER_SIZE 0) 4000000000 (9 + 1)).pc = .done →
      (reach pulseScript (List.replicate BUFFER_SIZE 0) 4000000000 (9 + 1)).bufferIndex
        = BUFFER_SIZE) ∧
    ((reach pulseScript (List.replicate BUFFER_SIZE 0) 4000000000 (9 + 1)).pc = .lineTest →
      ((reach pulseScript (List.replicate BUFFER_SIZE 0) 4000000000 (9 + 2)).pc = .done ↔
        (reach pulseScript (List.replicate BUFFER_SIZE 0) 4000000000 (9 + 1)).bufferIndex
          = BUFFER_SIZE)) ∧
    (∀ fuel r, captureImage pulseScript fuel (List.replicate BUFFER_SIZE 0) 4000000000 = some r →
      r.bufferIndex = 76800) :=
  C7_cursor_invariant pulseScript (List.replicate BUFFER_SIZE 0) 4000000000
    (List.length_replicate _ _) 9

/-! ## The control flow does not depend on the buffer -/

theorem control_step (env : Script) (s : State) :
    control (step env s) = control (step env (control s)) := by
  obtain ⟨pc, bi, buf, i, vr, hr, pr, ir, st, sa⟩ := s
  cases pc <;> simp only [step, control] <;> (try split) <;> rfl

theorem control_run (env : Script) (n : Nat) : ∀ s : State,
    control (run env n s) = control (run env n (control s)) := by
  induction n with
  | zero => intro s; rfl
  | succ n ih =>
    intro s
    simp only [run]
    rw [ih (step env s), ih (step env (control s)), control_step]

theorem control_reach (env : Script) (buf buf2 : List Nat) (idx idx2 : Nat) (n : Nat) :
    control (reach env buf idx (n + 1)) = control (reach env buf2 idx2 (n + 1)) := by
  simp only [reach, run]
  rw [control_run env n (step env (State.start buf idx)),
    control_run env n (step env (State.start buf2 idx2))]
  rfl

/-- C8: two calls of `captureImage` on the same script, from states that
differ in the contents of the buffer and in the value of `bufferIndex`: when
one returns, so does the other, within the same number of steps, with the same
buffer and the same cursor; each of the 76800 cells has been stored to, cell
`k` with the `k`-th value read from the data bus, so that nothing of the former
contents is left. -/
theorem C8_frame_stateless (env : Script) (buf buf2 : List Nat) (idx idx2 : Nat)
    (hb : buf.length = BUFFER_SIZE) (hb2 : buf2.length = BUFFER_SIZE)
    (fuel : Nat) (s : State) (h : captureImage env fuel buf idx = some s) :
    ∃ s2, captureImage env fuel buf2 idx2 = some s2 ∧
      s2.imageBuffer = s.imageBuffer ∧ s2.bufferIndex = s.bufferIndex ∧
      s.stores.map Prod.fst = List.range BUFFER_SIZE ∧
      s.imageBuffer = (List.range BUFFER_SIZE).map (fun k => env.idr k % 256) := by
  obtain ⟨h1, h2, m, hm⟩ := captureImage_some env fuel buf idx s h
  subst hm
  have hc := control_reach env buf buf2 idx idx2 m
  have hpc : (reach env buf2 idx2 (m + 1)).pc = .done := by
    have : (control (reach env buf2 idx2 (m + 1))).pc = (control (reach env buf idx (m + 1))).pc := by
      rw [hc]
    simp only [control] at this
    rw [this, ← h1]; exact h2
  obtain ⟨d1, -, d3, d4⟩ := Inv_done env _ (Inv_reach_succ env buf idx hb m) (h1 ▸ h2)
  obtain ⟨e1, -, -, e4⟩ := Inv_done env _ (Inv_reach_succ env buf2 idx2 hb2 m) hpc
  refine ⟨reach env buf2 idx2 (m + 1), ?_, ?_, ?_, ?_, ?_⟩
  · have : (run env (m + 1) (State.start buf2 idx2)).pc = .done := hpc
    simp [captureImage, reach, this]
  · rw [h1, e4, d4]
  · rw [h1, e1, d1]
  · rw [h1, d3, List.map_map]; exact List.map_id _
  · rw [h1, d4]

/-- C8 on the example script: a call from a cleared buffer and cursor 0, and
a call from a buffer filled with 255 and cursor 76800. -/
theorem C8_frame_stateless_witness :
    ∃ fuel s s2, captureImage pulseScript fuel (List.replicate BUFFER_SIZE 0) 0 = some s ∧
      captureImage pulseScript fuel (List.replicate BUFFER_SIZE 255) 76800 = some s2 ∧
      s2.imageBuffer = s.imageBuffer ∧ s2.bufferIndex = s.bufferIndex ∧
      s.stores.map Prod.fst = List.range BUFFER_SIZE ∧
      s.imageBuffer = (List.range BUFFER_SIZE).map (fun k => pulseScript.idr k % 256) := by
  obtain ⟨n, hn⟩ := capture_returns pulseScript (List.replicate BUFFER_SIZE 0) 0
    pulseScript_vsync pulseScript_href (pulseScript_pclk _ 0)
  have h : captureImage pulseScript (n + 1) (List.replicate BUFFER_SIZE 0) 0
      = some (run pulseScript (n + 1) (State.start (List.replicate BUFFER_SIZE 0) 0)) := by
    simp [captureImage, hn]
  obtain ⟨s2, q⟩ := C8_frame_stateless pulseScript (List.replicate BUFFER_SIZE 0)
    (List.replicate BUFFER_SIZE 255) 0 76800 (List.length_replicate _ _)
    (List.length_replicate _ _) (n + 1) _ h
  exact ⟨n + 1, _, s2, h, q⟩

/-- Line gating, at the state `n` steps into a call. -/
theorem line_gating_at (env : Script) (buf : List Nat) (idx : Nat)
    (hb : buf.length = BUFFER_SIZE) (n : Nat) :
    ((reach env buf idx n).pc = .hrefPoll → env.href (reach env buf idx n).hrefReads = false →
      (step env (reach env buf idx n)).pc = .lineTest ∧
      (step env (reach env buf idx n)).stores = (reach env buf idx n).stores ∧
      (step env (reach env buf idx n)).bufferIndex = (reach env buf idx n).bufferIndex ∧
      (step env (reach env buf idx n)).imageBuffer = (reach env buf idx n).imageBuffer) ∧
    ((reach env buf idx n).pc = .hrefPoll → env.href (reach env buf idx n).hrefReads = true →
      (reach env buf idx n).bufferIndex < BUFFER_SIZE ∧
      (∀ m, (reach env buf idx (n + m)).hrefReads = (reach env buf idx n).hrefReads + 1 →
        (reach env buf idx (n + m)).stores.length
          ≤ (reach env buf idx n).stores.length + IMAGE_WIDTH ∧
        ((reach env buf idx (n + m)).pc = .lineTest ∨ (reach env buf idx (n + m)).pc = .hrefPoll ∨
            (reach env buf idx (n + m)).pc = .done →
          (reach env buf idx (n + m)).stores.length
            = (reach env buf idx n).stores.length + 320)) ∧
      (HasPulses env.pclk (reach env buf idx n).pclkReads IMAGE_WIDTH →
        ∃ m, (reach env buf idx (n + m)).pc = .lineTest ∧
          (reach env buf idx (n + m)).hrefReads = (reach env buf idx n).hrefReads + 1 ∧
          (reach env buf idx (n + m)).stores.length
            = (reach env buf idx n).stores.length + 320)) ∧
    ((reach env buf idx n).pc = .done → highPolls env (reach env buf idx n) = 240) ∧
    ((reach env buf idx n).pc = .pixelTest ∨ (reach env buf idx n).pc = .pclkLowWait ∨
        (reach env buf idx n).pc = .sample ∨ (reach env buf idx n).pc = .pclkHighWait →
      (step env (reach env buf idx n)).hrefReads = (reach env buf idx n).hrefReads ∧
      ∀ href2 : Nat → Bool,
        step { env with href := href2 } (reach env buf idx n) = step env (reach env buf idx n)) := by
  rcases reach_zero_or_Inv env buf idx hb n with h0 | hinv
  · rw [h0]
    simp [State.start]
  have hbd := Inv_bounds env _ hinv
  have hlen : ∀ t, Inv env t → t.stores.length = t.bufferIndex := by
    intro t ht
    rw [ht.2.2.1]; simp
  generalize hs : reach env buf idx n = s at hinv hbd
  have hrun : ∀ m, reach env buf idx (n + m) = run env m s := by
    intro m
    rw [← hs]; exact run_add env n m _
  refine ⟨?_, ?_, ?_, ?_⟩
  · intro hpc hlow
    have e : step env s = { s with pc := .lineTest, hrefReads := s.hrefReads + 1 } := by
      simp [step, hpc, hlow]
    rw [e]
    exact ⟨rfl, rfl, rfl, rfl⟩
  · intro hpc hhigh
    have hlt : s.bufferIndex < BUFFER_SIZE := by
      have := hbd.2.2.1 hpc
      simp only [BUFFER_SIZE, IMAGE_WIDTH, IMAGE_HEIGHT] at *
      omega
    have hs5 := hinv.2.2.2.2
    rw [hpc] at hs5
    simp only [highPolls] at hs5
    refine ⟨hlt, ?_, ?_⟩
    · intro m hm
      rw [hrun m] at hm ⊢
      have hi2 := Inv_run env m s hinv
      have hb2 := Inv_bounds env _ hi2
      rw [hlen _ hi2, hlen _ hinv]
      have h5 := hi2.2.2.2.2
      generalize run env m s = t at hm hi2 hb2 h5
      obtain ⟨pc, bi, tbuf, i, vr, hr, pr, ir, st, sa⟩ := t
      simp only at hm
      subst hm
      cases pc <;>
        simp only [highPolls, countHigh_succ, hhigh, if_true, BUFFER_SIZE, IMAGE_WIDTH,
          IMAGE_HEIGHT] at * <;>
        refine ⟨by omega, ?_⟩ <;> simp <;> omega
    · intro hp
      have e : run env 1 s = { s with pc := .pixelTest, i := 0, hrefReads := s.hrefReads + 1 } := by
        simp [run, step, hpc, hhigh]
      have hp2 : HasPulses env.pclk (run env 1 s).pclkReads (IMAGE_WIDTH + 0) := by
        rw [e]; exact hp
      obtain ⟨m, q1, q2, q3, q4, -⟩ := line_run env 0 IMAGE_WIDTH (run env 1 s) (by rw [e])
        (by rw [e]; simp)
        (by rw [e]; simp only [BUFFER_SIZE, IMAGE_WIDTH, IMAGE_HEIGHT, UINT32_MOD] at *; omega)
        hp2
      refine ⟨1 + m, ?_⟩
      rw [hrun, run_add]
      refine ⟨q1, ?_, ?_⟩
      · rw [q3, e]
      · rw [q4, e]; rfl
  · intro hpc
    have := (hbd.2.2.2.2.1 hpc).2
    rw [this]; rfl
  · intro hpc
    obtain ⟨pc, bi, tbuf, i, vr, hr, pr, ir, st, sa⟩ := s
    simp only at hpc
    rcases hpc with h | h | h | h <;> subst h <;> refine ⟨?_, fun _ => rfl⟩ <;>
      first
        | rfl
        | (simp only [step]; split <;> rfl)

/-- C9: line gating. A poll of HREF that reads low makes no store and leaves
`bufferIndex` and the buffer unchanged. A poll that reads high is made with
`bufferIndex < BUFFER_SIZE`; until HREF is read again at most `IMAGE_WIDTH` =
320 stores are made, and exactly 320 have been made when control is back at the
line loop (or the function has returned); with 320 pulses of PCLK this point is
reached. A completed capture has polled HREF high exactly `IMAGE_HEIGHT` = 240
times. In the pixel loop HREF is not read, and the step taken does not depend
on the script of HREF. The stores are one per pulse of PCLK: in every state,
store `k` was made right after the read of PCLK that begins pulse `k`, and
between two stores in a row PCLK was read low. -/
theorem C9_line_gating (env : Script) (buf : List Nat) (idx : Nat)
    (hb : buf.length = BUFFER_SIZE) :
    (∀ n : Nat,
      ((reach env buf idx n).pc = .hrefPoll → env.href (reach env buf idx n).hrefReads = false →
        (step env (reach env buf idx n)).pc = .lineTest ∧
        (step env (reach env buf idx n)).stores = (reach env buf idx n).stores ∧
        (step env (reach env buf idx n)).bufferIndex = (reach env buf idx n).bufferIndex ∧
        (step env (reach env buf idx n)).imageBuffer = (reach env buf idx n).imageBuffer)) ∧
    (∀ n : Nat,
      ((reach env buf idx n).pc = .hrefPoll → env.href (reach env buf idx n).hrefReads = true →
        (reach env buf idx n).bufferIndex < BUFFER_SIZE ∧
        (∀ m, (reach env buf idx (n + m)).hrefReads = (reach env buf idx n).hrefReads + 1 →
          (reach env buf idx (n + m)).stores.length
            ≤ (reach env buf idx n).stores.length + IMAGE_WIDTH ∧
          ((reach env buf idx (n + m)).pc = .lineTest ∨ (reach env buf idx (n + m)).pc = .hrefPoll ∨
              (reach env buf idx (n + m)).pc = .done →
            (reach env buf idx (n + m)).stores.length
              = (reach env buf idx n).stores.length + 320)) ∧
        (HasPulses env.pclk (reach env buf idx n).pclkReads IMAGE_WIDTH →
          ∃ m, (reach env buf idx (n + m)).pc = .lineTest ∧
            (reach env buf idx (n + m)).hrefReads = (reach env buf idx n).hrefReads + 1 ∧
            (reach env buf idx (n + m)).stores.length
              = (reach env buf idx n).stores.length + 320))) ∧
    (∀ n : Nat,
      ((reach env buf idx n).pc = .done → highPolls env (reach env buf idx n) = 240)) ∧
    (∀ fuel r, captureImage env fuel buf idx = some r → highPolls env r = 240) ∧
    (∀ n : Nat,
      ((reach env buf idx n).pc = .pixelTest ∨ (reach env buf idx n).pc = .pclkLowWait ∨
          (reach env buf idx n).pc = .sample ∨ (reach env buf idx n).pc = .pclkHighWait →
        (step env (reach env buf idx n)).hrefReads = (reach env buf idx n).hrefReads ∧
        ∀ href2 : Nat → Bool,
          step { env with href := href2 } (reach env buf idx n) = step env (reach env buf idx n))) ∧
    (∀ n : Nat, (reach env buf idx n).sampledAt.length = (reach env buf idx n).stores.length ∧
      (∀ k, k < (reach env buf idx n).stores.length →
        ∃ r, (reach env buf idx n).sampledAt[k]? = some (r + 1) ∧ isRise env.pclk r = true ∧
          risesBefore env.pclk r = k) ∧
      (∀ k, k + 1 < (reach env buf idx n).stores.length →
        ∃ r r2 l, (reach env buf idx n).sampledAt[k]? = some (r + 1) ∧
          (reach env buf idx n).sampledAt[k + 1]? = some (r2 + 1) ∧
          r < l ∧ l < r2 ∧ env.pclk r = true ∧ env.pclk l = false ∧ env.pclk r2 = true)) ∧
    (∀ t : State, t.pc = .sample →
      (step env t).stores = t.stores ++ [(t.bufferIndex, env.idr t.idrReads % 256)] ∧
      (step env t).sampledAt = t.sampledAt ++ [t.pclkReads]) ∧
    (∀ t : State, t.pc ≠ .sample →
      (step env t).stores = t.stores ∧ (step env t).sampledAt = t.sampledAt) := by
  refine ⟨fun n => (line_gating_at env buf idx hb n).1,
    fun n => (line_gating_at env buf idx hb n).2.1,
    fun n => (line_gating_at env buf idx hb n).2.2.1, ?_,
    fun n => (line_gating_at env buf idx hb n).2.2.2, ?_, ?_, ?_⟩
  · intro fuel r hr
    obtain ⟨h1, h2, m, hm⟩ := captureImage_some env fuel buf idx r hr
    subst hm
    have := (Inv_bounds env _ (Inv_reach_succ env buf idx hb m)).2.2.2.2.1 (h1 ▸ h2)
    rw [h1, this.2]; rfl
  · intro n
    have hpi := PulseInv_reach env buf idx n
    refine ⟨hpi.1, ?_, ?_⟩
    · intro k hk
      exact hpi.2.1 k (by rw [hpi.1]; exact hk)
    · intro k hk
      exact samples_apart env _ hpi k (by rw [hpi.1]; exact hk)
  · intro t ht
    rw [step_sample env t ht]
    exact ⟨rfl, rfl⟩
  · intro t ht
    exact ⟨(step_frame env t ht).2.2.1, step_sampledAt env t ht⟩

/-- C9 on the example script: the poll of HREF 4 steps into the call reads
low, the poll 8 steps into the call reads high and 320 pulses of PCLK follow,
10 steps into the call the pixel loop is in the wait of line 61, and the call
returns. -/
theorem C9_line_gating_witness :
    ((reach pulseScript (List.replicate BUFFER_SIZE 0) 3 4).pc = .hrefPoll ∧
      pulseScript.href (reach pulseScript (List.replicate BUFFER_SIZE 0) 3 4).hrefReads = false) ∧
    ((reach pulseScript (List.replicate BUFFER_SIZE 0) 3 8).pc = .hrefPoll ∧
      pulseScript.href (reach pulseScript (List.replicate BUFFER_SIZE 0) 3 8).hrefReads = true ∧
      HasPulses pulseScript.pclk (reach pulseScript (List.replicate BUFFER_SIZE 0) 3 8).pclkReads
        IMAGE_WIDTH) ∧
    (reach pulseScript (List.replicate BUFFER_SIZE 0) 3 10).pc = .pclkLowWait ∧
    (∃ fuel r, captureImage pulseScript fuel (List.replicate BUFFER_SIZE 0) 3 = some r) ∧
    ((∀ n : Nat,
      ((reach pulseScript (List.replicate BUFFER_SIZE 0) 3 n).pc = .hrefPoll → pulseScript.href
          (reach pulseScript (List.replicate BUFFER_SIZE 0) 3 n).hrefReads = false →
        (step pulseScript (reach pulseScript (List.replicate BUFFER_SIZE 0) 3 n)).pc = .lineTest ∧
        (step pulseScript (reach pulseScript (List.replicate BUFFER_SIZE 0) 3 n)).stores = (reach
          pulseScript (List.replicate BUFFER_SIZE 0) 3 n).stores ∧
        (step pulseScript (reach pulseScript (List.replicate BUFFER_SIZE 0) 3 n)).bufferIndex =
          (reach pulseScript (List.replicate BUFFER_SIZE 0) 3 n).bufferIndex ∧
        (step pulseScript (reach pulseScript (List.replicate BUFFER_SIZE 0) 3 n)).imageBuffer =
          (reach pulseScript (List.replicate BUFFER_SIZE 0) 3 n).imageBuffer)) ∧
    (∀ n : Nat,
      ((reach pulseScript (List.replicate BUFFER_SIZE 0) 3 n).pc = .hrefPoll → pulseScript.href
          (reach pulseScript (List.replicate BUFFER_SIZE 0) 3 n).hrefReads = true →
        (reach pulseScript (List.replicate BUFFER_SIZE 0) 3 n).bufferIndex < BUFFER_SIZE ∧
        (∀ m, (reach pulseScript (List.replicate BUFFER_SIZE 0) 3 (n + m)).hrefReads = (reach
          pulseScript (List.replicate BUFFER_SIZE 0) 3 n).hrefReads + 1 →
          (reach pulseScript (List.replicate BUFFER_SIZE 0) 3 (n + m)).stores.length
            ≤ (reach pulseScript (List.replicate BUFFER_SIZE 0) 3 n).stores.length + IMAGE_WIDTH ∧
          ((reach pulseScript (List.replicate BUFFER_SIZE 0) 3 (n + m)).pc = .lineTest ∨ (reach
          pulseScript (List.replicate BUFFER_SIZE 0) 3 (n + m)).pc = .hrefPoll ∨
              (reach pulseScript (List.replicate BUFFER_SIZE 0) 3 (n + m)).pc = .done →
            (reach pulseScript (List.replicate BUFFER_SIZE 0) 3 (n + m)).stores.length
              = (reach pulseScript (List.replicate BUFFER_SIZE 0) 3 n).stores.length + 320)) ∧
        (HasPulses pulseScript.pclk (reach pulseScript (List.replicate BUFFER_SIZE 0) 3
          n).pclkReads IMAGE_WIDTH →
          ∃ m, (reach pulseScript (List.replicate BUFFER_SIZE 0) 3 (n + m)).pc = .lineTest ∧
            (reach pulseScript (List.replicate BUFFER_SIZE 0) 3 (n + m)).hrefReads = (reach
          pulseScript (List.replicate BUFFER_SIZE 0) 3 n).hrefReads + 1 ∧
            (reach pulseScript (List.replicate BUFFER_SIZE 0) 3 (n + m)).stores.length
              = (reach pulseScript (List.replicate BUFFER_SIZE 0) 3 n).stores.length + 320))) ∧
    (∀ n : Nat,
      ((reach pulseScript (List.replicate BUFFER_SIZE 0) 3 n).pc = .done → highPolls pulseScript
          (reach pulseScript (List.replicate BUFFER_SIZE 0) 3 n) = 240)) ∧
    (∀ fuel r, captureImage pulseScript fuel (List.replicate BUFFER_SIZE 0) 3 = some r → highPolls
          pulseScript r = 240) ∧
    (∀ n : Nat,
      ((reach pulseScript (List.replicate BUFFER_SIZE 0) 3 n).pc = .pixelTest ∨ (reach pulseScript
          (List.replicate BUFFER_SIZE 0) 3 n).pc = .pclkLowWait ∨
          (reach pulseScript (List.replicate BUFFER_SIZE 0) 3 n).pc = .sample ∨ (reach pulseScript
          (List.replicate BUFFER_SIZE 0) 3 n).pc = .pclkHighWait →
        (step pulseScript (reach pulseScript (List.replicate BUFFER_SIZE 0) 3 n)).hrefReads =
          (reach pulseScript (List.replicate BUFFER_SIZE 0) 3 n).hrefReads ∧
        ∀ href2 : Nat → Bool,
          step { pulseScript with href := href2 } (reach pulseScript (List.replicate BUFFER_SIZE 0)
          3 n) = step pulseScript (reach pulseScript (List.replicate BUFFER_SIZE 0) 3 n))) ∧
    (∀ n : Nat, (reach pulseScript (List.replicate BUFFER_SIZE 0) 3 n).sampledAt.length = (reach
          pulseScript (List.replicate BUFFER_SIZE 0) 3 n).stores.length ∧
      (∀ k, k < (reach pulseScript (List.replicate BUFFER_SIZE 0) 3 n).stores.length →
        ∃ r, (reach pulseScript (List.replicate BUFFER_SIZE 0) 3 n).sampledAt[k]? = some (r + 1) ∧
          isRise pulseScript.pclk r = true ∧
          risesBefore pulseScript.pclk r = k) ∧
      (∀ k, k + 1 < (reach pulseScript (List.replicate BUFFER_SIZE 0) 3 n).stores.length →
        ∃ r r2 l, (reach pulseScript (List.replicate BUFFER_SIZE 0) 3 n).sampledAt[k]? = some (r +
          1) ∧
          (reach pulseScript (List.replicate BUFFER_SIZE 0) 3 n).sampledAt[k + 1]? = some (r2 + 1) ∧
          r < l ∧ l < r2 ∧ pulseScript.pclk r = true ∧ pulseScript.pclk l = false ∧
          pulseScript.pclk r2 = true)) ∧
    (∀ t : State, t.pc = .sample →
      (step pulseScript t).stores = t.stores ++ [(t.bufferIndex, pulseScript.idr t.idrReads % 256)]
          ∧
      (step pulseScript t).sampledAt = t.sampledAt ++ [t.pclkReads]) ∧
    (∀ t : State, t.pc ≠ .sample →
      (step pulseScript t).stores = t.stores ∧ (step pulseScript t).sampledAt = t.sampledAt)) := by
  obtain ⟨n, hn⟩ := capture_returns pulseScript (List.replicate BUFFER_SIZE 0) 3
    pulseScript_vsync pulseScript_href (pulseScript_pclk _ 0)
  have h : captureImage pulseScript (n + 1) (List.replicate BUFFER_SIZE 0) 3
      = some (run pulseScript (n + 1) (State.start (List.replicate BUFFER_SIZE 0) 3)) := by
    simp [captureImage, hn]
  exact ⟨⟨rfl, rfl⟩, ⟨rfl, rfl, pulseScript_pclk _ _⟩, rfl, ⟨n + 1, _, h⟩,
    C9_line_gating pulseScript (List.replicate BUFFER_SIZE 0) 3 (List.length_replicate _ _)⟩

end FIFO
